import Mathlib

/-!
The WALE sub-grid-scale model (`Wale.H`, `Wale.C`)

A shallow embedding of `Foam::incompressible::LESModels::Wale`.

* Scalars are elements of a field `α`; the theorems are stated over `ℝ`
  (exact real arithmetic), the definitions stay generic so that the tensor
  algebra can be evaluated over `ℚ`.
* The field operators of the host library act point by point, so every field
  expression of the source is embedded as a point-wise kernel (`Sd`, `kPoint`)
  mapped over the internal (cell) and boundary (face) values.
* The host library itself (tensor primitives, `pow`, `sqrt`, dictionaries,
  the `GenEddyVisc` base class) is not part of the repository; its pieces are
  modelled below and marked as such.
-/

open Matrix

namespace Foam

/-! ## Primitive tensor types of the host library -/

/-- Modelled from the spec: the host library's transcendental scalar functions
`pow(x, y)` and `sqrt(x)` (not part of the repository).  Over `ℝ` they are the
real power and the real square root. -/
class ScalarFunctions (α : Type) where
  pow : α → α → α
  sqrt : α → α

/-- Modelled from the spec: the host library's rank-2 tensor type (not part of
the repository), nine components stored row by row. -/
structure Tensor (α : Type) where
  xx : α
  xy : α
  xz : α
  yx : α
  yy : α
  yz : α
  zx : α
  zy : α
  zz : α
deriving DecidableEq, Repr

/-- Modelled from the spec: the host library's symmetric rank-2 tensor type
(not part of the repository); only the upper triangle is stored. -/
structure SymmTensor (α : Type) where
  xx : α
  xy : α
  xz : α
  yy : α
  yz : α
  zz : α
deriving DecidableEq, Repr

/-- Modelled from the spec: the host library's spherical tensor type (not part
of the repository), a multiple `ii` of the identity. -/
structure SphericalTensor (α : Type) where
  ii : α
deriving DecidableEq, Repr

section primitives

variable {α : Type} [Field α]

/-- Modelled from the spec: the identity tensor `I` of the host library. -/
def I : SphericalTensor α := ⟨1⟩

/-- Modelled from the spec: `symm(t)`, the symmetric part of a tensor, as the
host library computes it (result stored as a symmetric tensor). -/
def symm (t : Tensor α) : SymmTensor α :=
  { xx := t.xx, xy := 0.5 * (t.xy + t.yx), xz := 0.5 * (t.xz + t.zx)
    yy := t.yy, yz := 0.5 * (t.yz + t.zy)
    zz := t.zz }

/-- Modelled from the spec: `skew(t)`, the antisymmetric part of a tensor, as
the host library computes it. -/
def skew (t : Tensor α) : Tensor α :=
  { xx := 0, xy := 0.5 * (t.xy - t.yx), xz := 0.5 * (t.xz - t.zx)
    yx := 0.5 * (t.yx - t.xy), yy := 0, yz := 0.5 * (t.yz - t.zy)
    zx := 0.5 * (t.zx - t.xz), zy := 0.5 * (t.zy - t.yz), zz := 0 }

/-- Modelled from the spec: `st1 & st2`, the single contraction (inner product)
of two symmetric tensors; the result is a full tensor. -/
def SymmTensor.dot (s t : SymmTensor α) : Tensor α :=
  { xx := s.xx * t.xx + s.xy * t.xy + s.xz * t.xz
    xy := s.xx * t.xy + s.xy * t.yy + s.xz * t.yz
    xz := s.xx * t.xz + s.xy * t.yz + s.xz * t.zz
    yx := s.xy * t.xx + s.yy * t.xy + s.yz * t.xz
    yy := s.xy * t.xy + s.yy * t.yy + s.yz * t.yz
    yz := s.xy * t.xz + s.yy * t.yz + s.yz * t.zz
    zx := s.xz * t.xx + s.yz * t.xy + s.zz * t.xz
    zy := s.xz * t.xy + s.yz * t.yy + s.zz * t.yz
    zz := s.xz * t.xz + s.yz * t.yz + s.zz * t.zz }

/-- Modelled from the spec: `t1 & t2`, the single contraction (inner product)
of two tensors. -/
def Tensor.dot (s t : Tensor α) : Tensor α :=
  { xx := s.xx * t.xx + s.xy * t.yx + s.xz * t.zx
    xy := s.xx * t.xy + s.xy * t.yy + s.xz * t.zy
    xz := s.xx * t.xz + s.xy * t.yz + s.xz * t.zz
    yx := s.yx * t.xx + s.yy * t.yx + s.yz * t.zx
    yy := s.yx * t.xy + s.yy * t.yy + s.yz * t.zy
    yz := s.yx * t.xz + s.yy * t.yz + s.yz * t.zz
    zx := s.zx * t.xx + s.zy * t.yx + s.zz * t.zx
    zy := s.zx * t.xy + s.zy * t.yy + s.zz * t.zy
    zz := s.zx * t.xz + s.zy * t.yz + s.zz * t.zz }

/-- Modelled from the spec: `st1 && st2`, the double contraction of two
symmetric tensors (the stored off-diagonal components count twice). -/
def SymmTensor.ddot (s t : SymmTensor α) : α :=
  s.xx * t.xx + 2 * s.xy * t.xy + 2 * s.xz * t.xz
    + s.yy * t.yy + 2 * s.yz * t.yz
    + s.zz * t.zz

/-- Modelled from the spec: `t1 && t2`, the double contraction of two tensors,
the sum of the element-wise products. -/
def Tensor.ddot (s t : Tensor α) : α :=
  s.xx * t.xx + s.xy * t.xy + s.xz * t.xz
    + s.yx * t.yx + s.yy * t.yy + s.yz * t.yz
    + s.zx * t.zx + s.zy * t.zy + s.zz * t.zz

/-- Modelled from the spec: `t1 + t2`, component-wise sum of two tensors. -/
def Tensor.add (s t : Tensor α) : Tensor α :=
  { xx := s.xx + t.xx, xy := s.xy + t.xy, xz := s.xz + t.xz
    yx := s.yx + t.yx, yy := s.yy + t.yy, yz := s.yz + t.yz
    zx := s.zx + t.zx, zy := s.zy + t.zy, zz := s.zz + t.zz }

/-- Modelled from the spec: `t - st`, a tensor minus a spherical tensor (only
the diagonal changes). -/
def Tensor.subSpherical (t : Tensor α) (st : SphericalTensor α) : Tensor α :=
  { xx := t.xx - st.ii, xy := t.xy, xz := t.xz
    yx := t.yx, yy := t.yy - st.ii, yz := t.yz
    zx := t.zx, zy := t.zy, zz := t.zz - st.ii }

/-- Modelled from the spec: `s * st`, a scalar times a spherical tensor. -/
def SphericalTensor.scale (s : α) (st : SphericalTensor α) : SphericalTensor α :=
  ⟨s * st.ii⟩

/-- Modelled from the spec: `st * s`, a spherical tensor times a scalar (the
point-wise product of a uniform spherical tensor with a scalar field). -/
def SphericalTensor.mulScalar (st : SphericalTensor α) (s : α) : SphericalTensor α :=
  ⟨st.ii * s⟩

/-- Modelled from the spec: `sqr(x)`, the square of a scalar. -/
def sqr (x : α) : α := x * x

/-- The zero tensor. -/
def Tensor.zero : Tensor α := ⟨0, 0, 0, 0, 0, 0, 0, 0, 0⟩

/-- The components of a tensor as a `3 × 3` matrix. -/
def Tensor.toMatrix (t : Tensor α) : Matrix (Fin 3) (Fin 3) α :=
  fun i j =>
    match i, j with
    | 0, 0 => t.xx
    | 0, 1 => t.xy
    | 0, 2 => t.xz
    | 1, 0 => t.yx
    | 1, 1 => t.yy
    | 1, 2 => t.yz
    | 2, 0 => t.zx
    | 2, 1 => t.zy
    | 2, 2 => t.zz

/-- The tensor with the components of a `3 × 3` matrix. -/
def Tensor.ofMatrix (M : Matrix (Fin 3) (Fin 3) α) : Tensor α :=
  ⟨M 0 0, M 0 1, M 0 2, M 1 0, M 1 1, M 1 2, M 2 0, M 2 1, M 2 2⟩

/-- The components of a symmetric tensor as a (symmetric) `3 × 3` matrix. -/
def SymmTensor.toMatrix (t : SymmTensor α) : Matrix (Fin 3) (Fin 3) α :=
  fun i j =>
    match i, j with
    | 0, 0 => t.xx
    | 0, 1 => t.xy
    | 0, 2 => t.xz
    | 1, 0 => t.xy
    | 1, 1 => t.yy
    | 1, 2 => t.yz
    | 2, 0 => t.xz
    | 2, 1 => t.yz
    | 2, 2 => t.zz

end primitives

/-! ## Fields, dictionaries and dimensioned scalars of the host library -/

/-- Modelled from the spec: the host library's exponent vector of the seven
base dimensions (not part of the repository). -/
structure dimensionSet where
  mass : ℚ
  length : ℚ
  time : ℚ
  temperature : ℚ
  moles : ℚ
  current : ℚ
  luminousIntensity : ℚ
deriving DecidableEq, Repr

/-- Modelled from the spec: the dimension signature of a dimensionless
quantity. -/
def dimless : dimensionSet := ⟨0, 0, 0, 0, 0, 0, 0⟩

/-- Modelled from the spec: the host library's `dimensionedScalar`, a named
scalar with a physical dimension. -/
structure dimensionedScalar (α : Type) where
  name : String
  dimensions : dimensionSet
  value : α
deriving DecidableEq, Repr

/-- Modelled from the spec: the coefficient dictionary, a list of keyed
scalar entries. -/
abbrev dictionary (α : Type) : Type := List (String × α)

/-- Modelled from the spec: a field over the mesh, with one value per cell
and one per boundary face (the host library's `GeometricField`). -/
structure GeometricField (Cell Face T : Type) where
  internalField : Cell → T
  boundaryField : Face → T

/-- A scalar field over the mesh. -/
abbrev volScalarField (Cell Face α : Type) : Type := GeometricField Cell Face α

/-- A rank-2 tensor field over the mesh. -/
abbrev volTensorField (Cell Face α : Type) : Type := GeometricField Cell Face (Tensor α)

/-- Modelled from the spec: the field operators of the host library act
point by point, on the cell values and on the boundary values alike. -/
def GeometricField.map₂ {Cell Face A B C : Type} (f : A → B → C)
    (a : GeometricField Cell Face A) (b : GeometricField Cell Face B) :
    GeometricField Cell Face C :=
  { internalField := fun c => f (a.internalField c) (b.internalField c)
    boundaryField := fun p => f (a.boundaryField p) (b.boundaryField p) }

/-- Modelled from the spec: a field with the same value everywhere. -/
def GeometricField.uniform {Cell Face T : Type} (t : T) : GeometricField Cell Face T :=
  { internalField := fun _ => t, boundaryField := fun _ => t }

section host

variable {α : Type} [Field α]

/-- Modelled from the spec: the host library's constant `SMALL` in double
precision. -/
def SMALL : α := 1e-15

/-- Modelled from the spec: `dict.lookupOrAddDefault(name, defaultValue)`,
configuration lookup-with-default; an absent key is added with the default. -/
def dictionary.lookupOrAddDefault (dict : dictionary α) (name : String) (defaultValue : α) :
    α × dictionary α :=
  match List.lookup name dict with
  | some v => (v, dict)
  | none => (defaultValue, dict ++ [(name, defaultValue)])

/-- Modelled from the spec: `dimensioned<scalar>::lookupOrAddToDict(name, dict,
defaultValue)`; the result is dimensionless and carries the key as its name. -/
def dimensionedScalar.lookupOrAddToDict (name : String) (dict : dictionary α)
    (defaultValue : α) : dimensionedScalar α × dictionary α :=
  (⟨name, dimless, (dictionary.lookupOrAddDefault dict name defaultValue).1⟩,
    (dictionary.lookupOrAddDefault dict name defaultValue).2)

/-- Modelled from the spec: `readIfPresent(dict)` on a dimensioned scalar:
the value is replaced by the entry stored under the scalar's own name if there
is one, and left alone otherwise. -/
def dimensionedScalar.readIfPresent (d : dimensionedScalar α) (dict : dictionary α) :
    dimensionedScalar α :=
  match List.lookup d.name dict with
  | some v => { d with value := v }
  | none => d

end host

/-- Modelled from the spec: the state of the base eddy-viscosity collaborator
`GenEddyVisc` as far as the model sees it: the coefficient dictionary, the
filter width `delta()`, and everything else it owns (`world`). -/
structure GenEddyVisc (Cell Face α World : Type) where
  coeffDict_ : dictionary α
  delta : volScalarField Cell Face α
  world : World

/-- Modelled from the spec: the operations consumed from the collaborators
(§6): the base hooks `GenEddyVisc::correct(gradU)` and `GenEddyVisc::read()`,
and the boundary machinery of the eddy-viscosity field, which decides the
boundary values from the previous boundary values and the freshly assigned
field. -/
structure Host (Cell Face α World : Type) where
  correct : volTensorField Cell Face α → GenEddyVisc Cell Face α World →
    GenEddyVisc Cell Face α World
  read : GenEddyVisc Cell Face α World → Bool × GenEddyVisc Cell Face α World
  correctBoundaryConditions : (Face → α) → volScalarField Cell Face α → Face → α

/-- The model object: the base sub-object, the eddy-viscosity field `nuSgs_`,
and the private data `cw_`, `ck_`, `smallConst_` (`Wale.H`, lines 91-94).
`nuSgs_` is declared by the base class; it is kept apart from `base` because
the model alone owns and writes it (spec §3, §5), so the base hooks cannot
reach it. -/
structure Wale (Cell Face α World : Type) where
  base : GenEddyVisc Cell Face α World
  nuSgs_ : volScalarField Cell Face α
  cw_ : dimensionedScalar α
  ck_ : dimensionedScalar α
  smallConst_ : dimensionedScalar α

/-- One call of the public interface: `correct(gradU)` or `read()`. -/
inductive Call (Cell Face α : Type) where
  | correct (gradU : volTensorField Cell Face α)
  | read

/-! ## The model (`Wale.H`, `Wale.C`) -/

section model

variable {α : Type} [Field α]

/-- `Wale::Sd(gradU)` at one point of the field (`Wale.H`, lines 96-101):
`(symm(gradU) & symm(gradU)) + (skew(gradU) & skew(gradU))
   - ((1.0/3.0)*I)*((symm(gradU) && symm(gradU)) - (skew(gradU) && skew(gradU)))`. -/
def Sd (gradU : Tensor α) : Tensor α :=
  (((symm gradU).dot (symm gradU)).add ((skew gradU).dot (skew gradU))).subSpherical
    ((SphericalTensor.scale (1.0 / 3.0) I).mulScalar
      ((symm gradU).ddot (symm gradU) - (skew gradU).ddot (skew gradU)))

variable [ScalarFunctions α]

/-- `Wale::k(gradU)` at one point of the field (`Wale.H`, lines 140-153), with
`cw`, `ck`, `smallConst` the values of `cw_`, `ck_`, `smallConst_` and `delta`
the local filter width:
`sqr(cw_*delta()/ck_) * (pow(Sd && Sd, 3.0) /
   (pow(pow(symm && symm, 5.0/2.0) + pow(Sd && Sd, 5.0/4.0), 2.0) + smallConst_))`.
The two quotients are the total division of the field, so this is the value
of the source expression wherever both divisors are non-zero; `kPointChecked`
says where that is. -/
def kPoint (cw ck smallConst delta : α) (gradU : Tensor α) : α :=
  sqr (cw * delta / ck) *
    (ScalarFunctions.pow ((Sd gradU).ddot (Sd gradU)) 3.0 /
      (ScalarFunctions.pow
          (ScalarFunctions.pow ((symm gradU).ddot (symm gradU)) (5.0 / 2.0) +
            ScalarFunctions.pow ((Sd gradU).ddot (Sd gradU)) (5.0 / 4.0)) 2.0
        + smallConst))

/-- The divisor in `Wale::k` (`Wale.H`, lines 147-150), named for the
statements about it:
`pow(pow(symm && symm, 5.0/2.0) + pow(Sd && Sd, 5.0/4.0), 2.0) + smallConst_`. -/
def kDivisor (smallConst : α) (gradU : Tensor α) : α :=
  ScalarFunctions.pow
      (ScalarFunctions.pow ((symm gradU).ddot (symm gradU)) (5.0 / 2.0) +
        ScalarFunctions.pow ((Sd gradU).ddot (Sd gradU)) (5.0 / 4.0)) 2.0
    + smallConst

/-- A quotient of the source in exact arithmetic: it has a value only for a
non-zero divisor.  The source divides unguarded, and on a zero divisor its
doubles give an infinity or a NaN, which is no real number: `none`. -/
def checkedDiv [DecidableEq α] (x y : α) : Option α :=
  if y = 0 then none else some (x / y)

/-- `Wale::k(gradU)` at one point of the field (`Wale.H`, lines 144-151) with
both quotients checked, `cw_*delta()/ck_` and the quotient by the regularized
divisor: the value of `k` where the source expression has one. -/
def kPointChecked [DecidableEq α] (cw ck smallConst delta : α) (gradU : Tensor α) : Option α :=
  (checkedDiv (cw * delta) ck).bind fun q =>
    (checkedDiv (ScalarFunctions.pow ((Sd gradU).ddot (Sd gradU)) 3.0)
        (kDivisor smallConst gradU)).bind fun r =>
      some (sqr q * r)

variable {Cell Face World : Type}

/-- `Wale::k(gradU)`: the SGS kinetic energy field of a gradient field. -/
def Wale.k (w : Wale Cell Face α World) (gradU : volTensorField Cell Face α) :
    volScalarField Cell Face α :=
  GeometricField.map₂ (kPoint w.cw_.value w.ck_.value w.smallConst_.value) w.base.delta gradU

/-- `Wale::k(gradU)` with both quotients checked, point by point. -/
def Wale.kChecked [DecidableEq α] (w : Wale Cell Face α World)
    (gradU : volTensorField Cell Face α) : GeometricField Cell Face (Option α) :=
  GeometricField.map₂ (kPointChecked w.cw_.value w.ck_.value w.smallConst_.value)
    w.base.delta gradU

/-- `Wale::updateSubGridScaleFields(gradU)` (`Wale.C`, lines 45-49):
`nuSgs_ = ck_*delta()*sqrt(k(gradU)); nuSgs_.correctBoundaryConditions();`. -/
def Wale.updateSubGridScaleFields (host : Host Cell Face α World) (w : Wale Cell Face α World)
    (gradU : volTensorField Cell Face α) : Wale Cell Face α World :=
  let assigned : volScalarField Cell Face α :=
    GeometricField.map₂ (fun d kv => w.ck_.value * d * ScalarFunctions.sqrt kv)
      w.base.delta (w.k gradU)
  { w with
    nuSgs_ :=
      { internalField := assigned.internalField
        boundaryField := host.correctBoundaryConditions w.nuSgs_.boundaryField assigned } }

/-- The constructor `Wale::Wale` (`Wale.C`, lines 54-92).  `base` and `nuSgs`
are the base sub-object and the eddy-viscosity field as the base constructor
leaves them, `gradU` is `fvc::grad(U)`.  Printing the coefficients changes no
state and is left out. -/
def Wale.construct (host : Host Cell Face α World) (base : GenEddyVisc Cell Face α World)
    (nuSgs : volScalarField Cell Face α) (gradU : volTensorField Cell Face α) :
    Wale Cell Face α World :=
  let cw := dimensionedScalar.lookupOrAddToDict "cw" base.coeffDict_ 0.1
  let ck := dimensionedScalar.lookupOrAddToDict "ck" cw.2 0.094
  Wale.updateSubGridScaleFields host
    { base := { base with coeffDict_ := ck.2 }
      nuSgs_ := nuSgs
      cw_ := cw.1
      ck_ := ck.1
      smallConst_ := ⟨"smallConst_", dimensionSet.mk 0 0 (-10) 0 0 0 0, SMALL⟩ }
    gradU

/-- `Wale::correct(gradU)` (`Wale.C`, lines 97-101):
`GenEddyVisc::correct(gradU); updateSubGridScaleFields(gradU());`. -/
def Wale.correct (host : Host Cell Face α World) (w : Wale Cell Face α World)
    (gradU : volTensorField Cell Face α) : Wale Cell Face α World :=
  Wale.updateSubGridScaleFields host { w with base := host.correct gradU w.base } gradU

/-- `Wale::read()` (`Wale.C`, lines 104-116): the result flag and the state
after the call. -/
def Wale.read (host : Host Cell Face α World) (w : Wale Cell Face α World) :
    Bool × Wale Cell Face α World :=
  if (host.read w.base).1 then
    (true, { w with
      base := (host.read w.base).2
      cw_ := w.cw_.readIfPresent (host.read w.base).2.coeffDict_ })
  else
    (false, { w with base := (host.read w.base).2 })

/-- The state after one call of the public interface. -/
def Wale.step (host : Host Cell Face α World) (w : Wale Cell Face α World) :
    Call Cell Face α → Wale Cell Face α World
  | Call.correct gradU => w.correct host gradU
  | Call.read => (w.read host).2

/-- The state after a sequence of calls, first call first. -/
def Wale.run (host : Host Cell Face α World) (w : Wale Cell Face α World)
    (calls : List (Call Cell Face α)) : Wale Cell Face α World :=
  calls.foldl (Wale.step host) w

end model

/-- Exact real arithmetic: `pow` is the real power function and `sqrt` the
real square root.  The model only raises sums of squares to a fractional
power, and on non-negative bases the real power is the value `pow` has in C;
for the whole-number exponents `2.0` and `3.0` it is the ordinary power for
every base. -/
noncomputable instance realScalarFunctions : ScalarFunctions ℝ where
  pow := fun x y => x ^ y
  sqrt := Real.sqrt

/-! ## Specification-side definitions -/

/-- The double contraction `A : B` in the words of the spec: the sum of the
element-wise products. -/
def ddotSpec {α : Type} [Field α] (A B : Matrix (Fin 3) (Fin 3) α) : α :=
  ∑ i, ∑ j, A i j * B i j

/-- The deviatoric square tensor in the words of the spec (§4.1):
`Sd = S·S + W·W − (1/3)·I·(S:S − W:W)` with `S = (G + Gᵀ)/2`, `W = (G − Gᵀ)/2`. -/
def SdSpec {α : Type} [Field α] (G : Matrix (Fin 3) (Fin 3) α) : Matrix (Fin 3) (Fin 3) α :=
  let S := (1 / 2 : α) • (G + Gᵀ)
  let W := (1 / 2 : α) • (G - Gᵀ)
  S * S + W * W - ((1 / 3 : α) * (ddotSpec S S - ddotSpec W W)) • (1 : Matrix (Fin 3) (Fin 3) α)

/-- The SGS kinetic energy in the words of the spec (§4.2), the regularization
constant inside the divisor:
`k = (cw·delta/ck)² · (Sd:Sd)³ / ( ((S:S)^(5/2) + (Sd:Sd)^(5/4))² + ε )`. -/
def kSpec {α : Type} [Field α] [ScalarFunctions α] (cw ck eps delta : α)
    (G : Matrix (Fin 3) (Fin 3) α) : α :=
  let S := (1 / 2 : α) • (G + Gᵀ)
  (cw * delta / ck) ^ 2 * (ddotSpec (SdSpec G) (SdSpec G)) ^ 3 /
    ((ScalarFunctions.pow (ddotSpec S S) (5 / 2) +
        ScalarFunctions.pow (ddotSpec (SdSpec G) (SdSpec G)) (5 / 4)) ^ 2 + eps)

/-! ## A one-cell instance of the model -/

section sample

variable {α : Type} [Field α]

/-- The simple-shear gradient `[[0,1,0],[0,0,0],[0,0,0]]` of the spec's
scenario (§8). -/
def shear : Tensor α := ⟨0, 1, 0, 0, 0, 0, 0, 0, 0⟩

/-- A host on a mesh with one cell and one boundary face: the base correction
changes nothing, the base reload reports `ok` and leaves `reloaded` as the
coefficient dictionary, and the boundary face takes the assigned value. -/
def sampleHost (ok : Bool) (reloaded : dictionary α) : Host Unit Unit α Unit :=
  { correct := fun _ b => b
    read := fun b => (ok, { b with coeffDict_ := reloaded })
    correctBoundaryConditions := fun _ assigned => assigned.boundaryField }

/-- A base sub-object with the coefficients of the spec's scenario and a
uniform filter width `1`. -/
def sampleBase : GenEddyVisc Unit Unit α Unit :=
  { coeffDict_ := [("cw", 0.1), ("ck", 0.094)]
    delta := GeometricField.uniform 1
    world := () }

/-- The model constructed on `sampleBase` from a uniform simple shear. -/
def sampleModel [ScalarFunctions α] (ok : Bool) (reloaded : dictionary α) :
    Wale Unit Unit α Unit :=
  Wale.construct (sampleHost ok reloaded) sampleBase (GeometricField.uniform 0)
    (GeometricField.uniform shear)

end sample

/-! ## Dimension bookkeeping of the host library -/

/-- Modelled from the spec: the dimension of a product, exponents add
(the host library's `operator*` on dimension sets). -/
def dimensionSet.mul (a b : dimensionSet) : dimensionSet :=
  ⟨a.mass + b.mass, a.length + b.length, a.time + b.time, a.temperature + b.temperature,
    a.moles + b.moles, a.current + b.current, a.luminousIntensity + b.luminousIntensity⟩

/-- Modelled from the spec: the dimension of a quotient, exponents subtract
(the host library's `operator/` on dimension sets). -/
def dimensionSet.div (a b : dimensionSet) : dimensionSet :=
  ⟨a.mass - b.mass, a.length - b.length, a.time - b.time, a.temperature - b.temperature,
    a.moles - b.moles, a.current - b.current, a.luminousIntensity - b.luminousIntensity⟩

/-- Modelled from the spec: the dimension of a power, exponents are scaled
(the host library's `pow` on dimension sets). -/
def dimensionSet.pow (a : dimensionSet) (p : ℚ) : dimensionSet :=
  ⟨a.mass * p, a.length * p, a.time * p, a.temperature * p,
    a.moles * p, a.current * p, a.luminousIntensity * p⟩

/-- Modelled from the spec: the dimension of a square (`sqr`). -/
def dimensionSet.sqr (a : dimensionSet) : dimensionSet := a.pow 2

/-- Modelled from the spec: the dimension of a square root (`sqrt`). -/
def dimensionSet.sqrt (a : dimensionSet) : dimensionSet := a.pow (1 / 2)

/-- Modelled from the spec: dimension-checked addition and subtraction
(§7): operands of different dimensions are rejected, the result is `none`;
operands of equal dimensions give that dimension. -/
def dimensionSet.checked (a b : dimensionSet) : Option dimensionSet :=
  if a = b then some a else none

/-- Modelled from the spec: the dimension of a length. -/
def dimLength : dimensionSet := ⟨0, 1, 0, 0, 0, 0, 0⟩

/-- Modelled from the spec: the dimension of a velocity gradient, one over
time. -/
def dimRate : dimensionSet := ⟨0, 0, -1, 0, 0, 0, 0⟩

/-- The dimension of `Wale::Sd(gradU)` for a gradient of dimension `g`,
following the expression of `Wale.H`, lines 98-100 operator by operator:
`symm` and `skew` keep the dimension, `&` and `&&` multiply, `(1.0/3.0)*I` is
dimensionless, `+` and `-` are checked. -/
def SdDimensions (g : dimensionSet) : Option dimensionSet :=
  (dimensionSet.checked (g.mul g) (g.mul g)).bind fun sum =>
    (dimensionSet.checked (g.mul g) (g.mul g)).bind fun diff =>
      dimensionSet.checked sum (dimless.mul diff)

/-- The dimension of the divisor in `Wale::k` (`Wale.H`, lines 147-150) for a
regularization constant of dimension `smallConst` and a gradient of dimension
`g`; both additions are checked. -/
def kDivisorDimensions (smallConst g : dimensionSet) : Option dimensionSet :=
  (SdDimensions g).bind fun sd =>
    (dimensionSet.checked ((g.mul g).pow (5 / 2)) ((sd.mul sd).pow (5 / 4))).bind fun inner =>
      dimensionSet.checked (inner.pow 2) smallConst

/-- The dimension of `Wale::k(gradU)` (`Wale.H`, lines 144-151), or `none`
when a checked addition rejects its operands. -/
def kDimensions (cw ck smallConst delta g : dimensionSet) : Option dimensionSet :=
  (SdDimensions g).bind fun sd =>
    (kDivisorDimensions smallConst g).bind fun divisor =>
      some ((((cw.mul delta).div ck).sqr).mul (((sd.mul sd).pow 3).div divisor))

/-- The dimension of the right-hand side `ck_*delta()*sqrt(k(gradU))` of
`Wale::updateSubGridScaleFields` (`Wale.C`, line 47). -/
def nuSgsDimensions (cw ck smallConst delta g : dimensionSet) : Option dimensionSet :=
  (kDimensions cw ck smallConst delta g).bind fun k =>
    some ((ck.mul delta).mul k.sqrt)

/-! ## Bookkeeping of the most recent update -/

/-- What the most recent update of the eddy viscosity was computed from: the
value of `cw_`, the filter width and the gradient at that moment. -/
structure LastUpdate (Cell Face α : Type) where
  cw : α
  delta : volScalarField Cell Face α
  gradU : volTensorField Cell Face α

section tracking

variable {α : Type} [Field α] [ScalarFunctions α] {Cell Face World : Type}

/-- One call of the public interface, recording next to the state what the
most recent update used: `correct(gradU)` updates the record, `read()` leaves
it alone. -/
def Wale.track (host : Host Cell Face α World)
    (p : Wale Cell Face α World × LastUpdate Cell Face α) :
    Call Cell Face α → Wale Cell Face α World × LastUpdate Cell Face α
  | Call.correct gradU =>
      (p.1.correct host gradU, ⟨p.1.cw_.value, (host.correct gradU p.1.base).delta, gradU⟩)
  | Call.read => ((p.1.read host).2, p.2)

/-- The state after a sequence of calls together with the record of the most
recent update. -/
def Wale.runTracked (host : Host Cell Face α World) (w : Wale Cell Face α World)
    (u : LastUpdate Cell Face α) (calls : List (Call Cell Face α)) :
    Wale Cell Face α World × LastUpdate Cell Face α :=
  calls.foldl (Wale.track host) (w, u)

/-- The eddy viscosity in cell `c` is what the record of the most recent
update gives: `ck * delta * sqrt(k(G))` with the recorded `cw`, filter width
and gradient and the current `ck` and regularization constant. -/
def Wale.ConsistentAt (c : Cell) (p : Wale Cell Face α World × LastUpdate Cell Face α) : Prop :=
  p.1.nuSgs_.internalField c =
    p.1.ck_.value * p.2.delta.internalField c *
      ScalarFunctions.sqrt (kPoint p.2.cw p.1.ck_.value p.1.smallConst_.value
        (p.2.delta.internalField c) (p.2.gradU.internalField c))

/-- The constructor followed by a sequence of calls; the record starts with
what the constructor's own update used. -/
def Wale.constructTracked (host : Host Cell Face α World) (base : GenEddyVisc Cell Face α World)
    (nuSgs : volScalarField Cell Face α) (gradU : volTensorField Cell Face α)
    (calls : List (Call Cell Face α)) :
    Wale Cell Face α World × LastUpdate Cell Face α :=
  Wale.runTracked host (Wale.construct host base nuSgs gradU)
    ⟨(Wale.construct host base nuSgs gradU).cw_.value,
      (Wale.construct host base nuSgs gradU).base.delta, gradU⟩ calls

end tracking

/-! ## Further specification-side definitions and sample data -/

/-- The eddy viscosity in closed form, in the words of the claim on its
dependence on the coefficients:
`cw · delta² · sqrt( (Sd:Sd)³ / ( ((S:S)^(5/2) + (Sd:Sd)^(5/4))² + eps ) )`. -/
def nuSgsSpec {α : Type} [Field α] [ScalarFunctions α] (cw eps delta : α)
    (G : Matrix (Fin 3) (Fin 3) α) : α :=
  let S := (1 / 2 : α) • (G + Gᵀ)
  cw * delta ^ 2 *
    ScalarFunctions.sqrt ((ddotSpec (SdSpec G) (SdSpec G)) ^ 3 /
      ((ScalarFunctions.pow (ddotSpec S S) (5 / 2) +
          ScalarFunctions.pow (ddotSpec (SdSpec G) (SdSpec G)) (5 / 4)) ^ 2 + eps))

section sample2

variable {α : Type} [Field α]

/-- A plane-strain gradient, `[[1,0,0],[0,-1,0],[0,0,0]]`. -/
def strain : Tensor α := ⟨1, 0, 0, 0, -1, 0, 0, 0, 0⟩

/-- A solid-body rotation about the third axis,
`[[0,1,0],[-1,0,0],[0,0,0]]`. -/
def rotation : Tensor α := ⟨0, 1, 0, -1, 0, 0, 0, 0, 0⟩

/-- The model constructed on `sampleBase` from a uniform plane strain. -/
def strainModel [ScalarFunctions α] (ok : Bool) (reloaded : dictionary α) :
    Wale Unit Unit α Unit :=
  Wale.construct (sampleHost ok reloaded) sampleBase (GeometricField.uniform 0)
    (GeometricField.uniform strain)

/-- A base sub-object whose coefficient dictionary sets `ck` to `0`; the
constructor takes the entry as it is. -/
def zeroCkBase : GenEddyVisc Unit Unit α Unit :=
  { coeffDict_ := [("cw", 0.1), ("ck", 0)]
    delta := GeometricField.uniform 1
    world := () }

/-- The model constructed on `zeroCkBase` from a uniform plane strain. -/
def zeroCkModel [ScalarFunctions α] : Wale Unit Unit α Unit :=
  Wale.construct (sampleHost true []) zeroCkBase (GeometricField.uniform 0)
    (GeometricField.uniform strain)

end sample2

/-! ## Bridges between the tensor primitives and matrices -/

theorem symm_toMatrix (G : Tensor ℝ) :
    (symm G).toMatrix = (1 / 2 : ℝ) • (G.toMatrix + G.toMatrixᵀ) := by
  ext i j
  fin_cases i <;> fin_cases j <;>
    norm_num [symm, SymmTensor.toMatrix, Tensor.toMatrix, Matrix.transpose_apply] <;> ring

theorem skew_toMatrix (G : Tensor ℝ) :
    (skew G).toMatrix = (1 / 2 : ℝ) • (G.toMatrix - G.toMatrixᵀ) := by
  ext i j
  fin_cases i <;> fin_cases j <;>
    norm_num [skew, Tensor.toMatrix, Matrix.transpose_apply]

theorem symmTensor_dot_toMatrix (s t : SymmTensor ℝ) :
    (s.dot t).toMatrix = s.toMatrix * t.toMatrix := by
  ext i j
  fin_cases i <;> fin_cases j <;>
    simp [SymmTensor.dot, SymmTensor.toMatrix, Tensor.toMatrix, Matrix.mul_apply,
      Fin.sum_univ_three]

theorem tensor_dot_toMatrix (s t : Tensor ℝ) :
    (s.dot t).toMatrix = s.toMatrix * t.toMatrix := by
  ext i j
  fin_cases i <;> fin_cases j <;>
    simp [Tensor.dot, Tensor.toMatrix, Matrix.mul_apply, Fin.sum_univ_three]

theorem symmTensor_ddot_eq_ddotSpec (s t : SymmTensor ℝ) :
    s.ddot t = ddotSpec s.toMatrix t.toMatrix := by
  simp [SymmTensor.ddot, ddotSpec, SymmTensor.toMatrix, Fin.sum_univ_three]
  ring

theorem tensor_ddot_eq_ddotSpec (s t : Tensor ℝ) :
    s.ddot t = ddotSpec s.toMatrix t.toMatrix := by
  simp [Tensor.ddot, ddotSpec, Tensor.toMatrix, Fin.sum_univ_three]
  ring

theorem Tensor.add_toMatrix (s t : Tensor ℝ) :
    (s.add t).toMatrix = s.toMatrix + t.toMatrix := by
  ext i j
  fin_cases i <;> fin_cases j <;> simp [Tensor.add, Tensor.toMatrix]

theorem Tensor.subSpherical_toMatrix (t : Tensor ℝ) (st : SphericalTensor ℝ) :
    (t.subSpherical st).toMatrix = t.toMatrix - st.ii • (1 : Matrix (Fin 3) (Fin 3) ℝ) := by
  ext i j
  fin_cases i <;> fin_cases j <;> simp [Tensor.subSpherical, Tensor.toMatrix]

theorem Sd_toMatrix (G : Tensor ℝ) : (Sd G).toMatrix = SdSpec G.toMatrix := by
  unfold Sd SdSpec
  rw [Tensor.subSpherical_toMatrix, Tensor.add_toMatrix, symmTensor_dot_toMatrix,
    tensor_dot_toMatrix, symm_toMatrix, skew_toMatrix, symmTensor_ddot_eq_ddotSpec,
    tensor_ddot_eq_ddotSpec, symm_toMatrix, skew_toMatrix]
  norm_num [SphericalTensor.mulScalar, SphericalTensor.scale, I]

/-! ## Scalar facts -/

theorem pow_real (x y : ℝ) : ScalarFunctions.pow x y = x ^ y := rfl

theorem sqrt_real (x : ℝ) : ScalarFunctions.sqrt x = Real.sqrt x := rfl

theorem rpow_three (x : ℝ) : x ^ (3.0 : ℝ) = x ^ 3 := by
  rw [show (3.0 : ℝ) = ((3 : ℕ) : ℝ) by norm_num, Real.rpow_natCast]

theorem rpow_two (x : ℝ) : x ^ (2.0 : ℝ) = x ^ 2 := by
  rw [show (2.0 : ℝ) = ((2 : ℕ) : ℝ) by norm_num, Real.rpow_natCast]

theorem symmTensor_ddot_self_nonneg (s : SymmTensor ℝ) : 0 ≤ s.ddot s := by
  unfold SymmTensor.ddot
  nlinarith [mul_self_nonneg s.xx, mul_self_nonneg s.xy, mul_self_nonneg s.xz,
    mul_self_nonneg s.yy, mul_self_nonneg s.yz, mul_self_nonneg s.zz]

theorem tensor_ddot_self_nonneg (t : Tensor ℝ) : 0 ≤ t.ddot t := by
  unfold Tensor.ddot
  nlinarith [mul_self_nonneg t.xx, mul_self_nonneg t.xy, mul_self_nonneg t.xz,
    mul_self_nonneg t.yx, mul_self_nonneg t.yy, mul_self_nonneg t.yz,
    mul_self_nonneg t.zx, mul_self_nonneg t.zy, mul_self_nonneg t.zz]

/-- The code's formula for `k` at a point is the spec's formula. -/
theorem kPoint_eq_kSpec (cw ck eps delta : ℝ) (G : Tensor ℝ) :
    kPoint cw ck eps delta G = kSpec cw ck eps delta G.toMatrix := by
  unfold kPoint kSpec
  simp only [pow_real, rpow_three, rpow_two, sqr, tensor_ddot_eq_ddotSpec,
    symmTensor_ddot_eq_ddotSpec, Sd_toMatrix, symm_toMatrix]
  rw [show (5.0 / 2.0 : ℝ) = 5 / 2 by norm_num, show (5.0 / 4.0 : ℝ) = 5 / 4 by norm_num]
  ring

theorem kPoint_nonneg (cw ck eps delta : ℝ) (G : Tensor ℝ) (heps : 0 < eps) :
    0 ≤ kPoint cw ck eps delta G := by
  unfold kPoint
  simp only [pow_real, rpow_two, sqr]
  apply mul_nonneg (mul_self_nonneg _)
  apply div_nonneg (Real.rpow_nonneg (tensor_ddot_self_nonneg _) _)
  positivity

/-! ## Special gradients -/

theorem Sd_offDiagonal (a : ℝ) :
    Sd (⟨0, a, 0, 0, 0, 0, 0, 0, 0⟩ : Tensor ℝ) = Tensor.zero ∧
    Sd (⟨0, 0, a, 0, 0, 0, 0, 0, 0⟩ : Tensor ℝ) = Tensor.zero ∧
    Sd (⟨0, 0, 0, a, 0, 0, 0, 0, 0⟩ : Tensor ℝ) = Tensor.zero ∧
    Sd (⟨0, 0, 0, 0, 0, a, 0, 0, 0⟩ : Tensor ℝ) = Tensor.zero ∧
    Sd (⟨0, 0, 0, 0, 0, 0, a, 0, 0⟩ : Tensor ℝ) = Tensor.zero ∧
    Sd (⟨0, 0, 0, 0, 0, 0, 0, a, 0⟩ : Tensor ℝ) = Tensor.zero := by
  refine ⟨?_, ?_, ?_, ?_, ?_, ?_⟩ <;>
    (simp only [Sd, symm, skew, SymmTensor.dot, Tensor.dot, SymmTensor.ddot, Tensor.ddot,
        Tensor.add, Tensor.subSpherical, SphericalTensor.scale, SphericalTensor.mulScalar, I,
        Tensor.zero, Tensor.mk.injEq]
     refine ⟨?_, ?_, ?_, ?_, ?_, ?_, ?_, ?_, ?_⟩ <;> ring)

theorem Sd_single_offDiagonal (i j : Fin 3) (hij : i ≠ j) (a : ℝ) :
    Sd (Tensor.ofMatrix (Matrix.stdBasisMatrix i j a)) = Tensor.zero := by
  obtain ⟨h01, h02, h10, h12, h20, h21⟩ := Sd_offDiagonal a
  fin_cases i <;> fin_cases j <;>
    first
    | exact absurd rfl hij
    | (simp [Tensor.ofMatrix, Matrix.stdBasisMatrix]
       assumption)

theorem Tensor.ddot_zero : (Tensor.zero : Tensor ℝ).ddot Tensor.zero = 0 := by
  simp [Tensor.ddot, Tensor.zero]

theorem Sd_zero : Sd (Tensor.zero : Tensor ℝ) = Tensor.zero := by
  norm_num [Sd, symm, skew, SymmTensor.dot, Tensor.dot, SymmTensor.ddot, Tensor.ddot,
    Tensor.add, Tensor.subSpherical, SphericalTensor.scale, SphericalTensor.mulScalar, I,
    Tensor.zero]

theorem kPoint_eq_div (cw ck eps delta : ℝ) (G : Tensor ℝ) :
    kPoint cw ck eps delta G =
      sqr (cw * delta / ck) *
        (ScalarFunctions.pow ((Sd G).ddot (Sd G)) 3.0 / kDivisor eps G) :=
  rfl

theorem kDivisor_ge (eps : ℝ) (G : Tensor ℝ) : eps ≤ kDivisor eps G := by
  unfold kDivisor
  simp only [pow_real, rpow_two]
  nlinarith [sq_nonneg (((symm G).ddot (symm G)) ^ (5.0 / 2.0 : ℝ) +
    ((Sd G).ddot (Sd G)) ^ (5.0 / 4.0 : ℝ))]

theorem kDivisor_pos (eps : ℝ) (G : Tensor ℝ) (heps : 0 < eps) : 0 < kDivisor eps G :=
  lt_of_lt_of_le heps (kDivisor_ge eps G)

theorem kDivisor_zero (eps : ℝ) : kDivisor eps (Tensor.zero : Tensor ℝ) = eps := by
  unfold kDivisor
  rw [Sd_zero, Tensor.ddot_zero]
  have h : (symm (Tensor.zero : Tensor ℝ)).ddot (symm Tensor.zero) = 0 := by
    simp [symm, SymmTensor.ddot, Tensor.zero]
  rw [h]
  simp only [pow_real, rpow_two]
  rw [Real.zero_rpow (by norm_num), Real.zero_rpow (by norm_num)]
  simp

/-- Where `Sd` vanishes, so does `k`. -/
theorem kPoint_of_Sd_zero (cw ck eps delta : ℝ) (G : Tensor ℝ) (h : Sd G = Tensor.zero) :
    kPoint cw ck eps delta G = 0 := by
  unfold kPoint
  rw [h, Tensor.ddot_zero, pow_real, rpow_three]
  simp

/-! ## State facts -/

section state

variable {Cell Face World : Type}

theorem Wale.updateSubGridScaleFields_frame (host : Host Cell Face ℝ World)
    (w : Wale Cell Face ℝ World) (gradU : volTensorField Cell Face ℝ) :
    (w.updateSubGridScaleFields host gradU).base = w.base ∧
    (w.updateSubGridScaleFields host gradU).cw_ = w.cw_ ∧
    (w.updateSubGridScaleFields host gradU).ck_ = w.ck_ ∧
    (w.updateSubGridScaleFields host gradU).smallConst_ = w.smallConst_ :=
  ⟨rfl, rfl, rfl, rfl⟩

theorem Wale.step_frame (host : Host Cell Face ℝ World) (w : Wale Cell Face ℝ World)
    (call : Call Cell Face ℝ) :
    (w.step host call).ck_ = w.ck_ ∧ (w.step host call).smallConst_ = w.smallConst_ ∧
      (w.step host call).cw_.name = w.cw_.name := by
  cases call with
  | correct gradU => exact ⟨rfl, rfl, rfl⟩
  | read =>
    refine ⟨?_, ?_, ?_⟩
    · simp only [Wale.step, Wale.read]
      split <;> rfl
    · simp only [Wale.step, Wale.read]
      split <;> rfl
    · simp only [Wale.step, Wale.read, dimensionedScalar.readIfPresent]
      split
      · split <;> rfl
      · rfl

theorem Wale.run_frame (host : Host Cell Face ℝ World) (calls : List (Call Cell Face ℝ)) :
    ∀ w : Wale Cell Face ℝ World,
      (w.run host calls).ck_ = w.ck_ ∧ (w.run host calls).smallConst_ = w.smallConst_ ∧
        (w.run host calls).cw_.name = w.cw_.name := by
  induction calls with
  | nil => intro w; exact ⟨rfl, rfl, rfl⟩
  | cons call rest ih =>
    intro w
    have h1 := Wale.step_frame host w call
    have h2 := ih (w.step host call)
    simp only [Wale.run, List.foldl_cons] at h2 ⊢
    exact ⟨h2.1.trans h1.1, h2.2.1.trans h1.2.1, h2.2.2.trans h1.2.2⟩

/-- Every state reached from the constructor keeps `cw_` under the key
`"cw"`. -/
theorem Wale.run_construct_cw_name (host : Host Cell Face ℝ World)
    (base : GenEddyVisc Cell Face ℝ World) (nuSgs : volScalarField Cell Face ℝ)
    (gradU : volTensorField Cell Face ℝ) (calls : List (Call Cell Face ℝ)) :
    ((Wale.construct host base nuSgs gradU).run host calls).cw_.name = "cw" :=
  (Wale.run_frame host calls _).2.2

end state

/-! ## Where the quotients of `k` have a value -/

theorem kPointChecked_of_ne (cw ck eps delta : ℝ) (G : Tensor ℝ) (hck : ck ≠ 0)
    (heps : 0 < eps) :
    kPointChecked cw ck eps delta G = some (kPoint cw ck eps delta G) := by
  have hdiv : kDivisor eps G ≠ 0 := ne_of_gt (kDivisor_pos eps G heps)
  simp only [kPointChecked, checkedDiv, if_neg hck, if_neg hdiv, Option.some_bind]
  rfl

theorem kPointChecked_ck_zero (cw eps delta : ℝ) (G : Tensor ℝ) :
    kPointChecked cw 0 eps delta G = none := by
  simp [kPointChecked, checkedDiv]

/-! ## Claims -/

/-- C1: in every cell, the value of `k(G)` is
`(cw*delta/ck)^2 * (Sd:Sd)^3 / (((S:S)^(5/2) + (Sd:Sd)^(5/4))^2 + eps)`
(the formula `kSpec`), with `eps` inside the divisor, added to the squared
sum before the division. -/
theorem k_eq_spec_formula {Cell Face World : Type} (w : Wale Cell Face ℝ World)
    (gradU : volTensorField Cell Face ℝ) (c : Cell) :
    (w.k gradU).internalField c =
      kSpec w.cw_.value w.ck_.value w.smallConst_.value (w.base.delta.internalField c)
        (gradU.internalField c).toMatrix := by
  simp only [Wale.k, GeometricField.map₂]
  exact kPoint_eq_kSpec _ _ _ _ _

/-- C2: for every tensor `G`, the code's `symm(G)` and `skew(G)` are
`S = (G + Gᵀ)/2` and `W = (G − Gᵀ)/2`, and the code's `Sd(G)` is
`S·S + W·W − (1/3)·I·(S:S − W:W)` (the formula `SdSpec`), with the matrix
product for `·` and the sum of element-wise products for `:`. -/
theorem Sd_eq_spec_formula (G : Tensor ℝ) :
    (symm G).toMatrix = (1 / 2 : ℝ) • (G.toMatrix + G.toMatrixᵀ) ∧
    (skew G).toMatrix = (1 / 2 : ℝ) • (G.toMatrix - G.toMatrixᵀ) ∧
    (Sd G).toMatrix = SdSpec G.toMatrix :=
  ⟨symm_toMatrix G, skew_toMatrix G, Sd_toMatrix G⟩

/-- C3: after `correct(G)` the eddy viscosity in every cell is
`ck * delta * sqrt(k(G))`, with `delta` the filter width left by the base
correction step and `k` evaluated with the current `cw`, `ck` and
regularization constant; the previous eddy-viscosity field has no influence
on the cell values. -/
theorem correct_nuSgs_cell {Cell Face World : Type} (host : Host Cell Face ℝ World)
    (w : Wale Cell Face ℝ World) (gradU : volTensorField Cell Face ℝ) (c : Cell) :
    (w.correct host gradU).nuSgs_.internalField c =
        w.ck_.value * (host.correct gradU w.base).delta.internalField c *
          Real.sqrt (kPoint w.cw_.value w.ck_.value w.smallConst_.value
            ((host.correct gradU w.base).delta.internalField c) (gradU.internalField c)) ∧
    (w.correct host gradU).nuSgs_.internalField c =
        w.ck_.value * (host.correct gradU w.base).delta.internalField c *
          Real.sqrt (((Wale.mk (host.correct gradU w.base) w.nuSgs_ w.cw_ w.ck_
            w.smallConst_).k gradU).internalField c) ∧
    ∀ previous : volScalarField Cell Face ℝ,
      ((Wale.mk w.base previous w.cw_ w.ck_ w.smallConst_).correct host gradU).nuSgs_.internalField c
        = (w.correct host gradU).nuSgs_.internalField c :=
  ⟨rfl, rfl, fun _ => rfl⟩

/-- Counterexample to C4 as stated: a model whose dictionary sets `ck = 0`
has a positive regularization constant, yet the quotient `cw*delta/ck` in `k`
has no value, so there is no real `k` to be non-negative. -/
theorem k_undefined_at_zero_ck :
    (zeroCkModel : Wale Unit Unit ℝ Unit).ck_.value = 0 ∧
    0 < (zeroCkModel : Wale Unit Unit ℝ Unit).smallConst_.value ∧
    ((zeroCkModel : Wale Unit Unit ℝ Unit).kChecked
      (GeometricField.uniform strain)).internalField () = none ∧
    ¬ ∃ v : ℝ, ((zeroCkModel : Wale Unit Unit ℝ Unit).kChecked
      (GeometricField.uniform strain)).internalField () = some v ∧ 0 ≤ v := by
  have hnone : ((zeroCkModel : Wale Unit Unit ℝ Unit).kChecked
      (GeometricField.uniform strain)).internalField () = none := by
    show kPointChecked (0.1 : ℝ) 0 SMALL 1 strain = none
    exact kPointChecked_ck_zero _ _ _ _
  refine ⟨rfl, ?_, hnone, ?_⟩
  · show (0 : ℝ) < SMALL
    norm_num [SMALL]
  · rintro ⟨v, hv, -⟩
    rw [hnone] at hv
    exact Option.noConfusion hv

/-- C4 (amended): with `ck ≠ 0` and a positive regularization constant, `k(G)`
has a value in every cell (both quotients are by non-zero divisors) and that
value is `≥ 0`, for every gradient field and all real `cw` and filter
widths. -/
theorem k_nonneg {Cell Face World : Type} (w : Wale Cell Face ℝ World)
    (gradU : volTensorField Cell Face ℝ) (c : Cell) (hck : w.ck_.value ≠ 0)
    (heps : 0 < w.smallConst_.value) :
    (w.kChecked gradU).internalField c = some ((w.k gradU).internalField c) ∧
    0 ≤ (w.k gradU).internalField c := by
  simp only [Wale.k, Wale.kChecked, GeometricField.map₂]
  exact ⟨kPointChecked_of_ne _ _ _ _ _ hck heps, kPoint_nonneg _ _ _ _ _ heps⟩

theorem k_nonneg_witness :
    (sampleModel true [] : Wale Unit Unit ℝ Unit).ck_.value ≠ 0 ∧
    0 < (sampleModel true [] : Wale Unit Unit ℝ Unit).smallConst_.value ∧
    0 ≤ ((sampleModel true [] : Wale Unit Unit ℝ Unit).k
      (GeometricField.uniform ⟨1, 2, 3, 4, 5, 6, 7, 8, 10⟩)).internalField () :=
  ⟨by show (0.094 : ℝ) ≠ 0; norm_num,
    by show (0 : ℝ) < SMALL; norm_num [SMALL],
    (k_nonneg (sampleModel true []) (GeometricField.uniform ⟨1, 2, 3, 4, 5, 6, 7, 8, 10⟩) ()
      (by show (0.094 : ℝ) ≠ 0; norm_num)
      (by show (0 : ℝ) < SMALL; norm_num [SMALL])).2⟩

/-- C5: if the base reload reports failure, `read()` returns false and `cw`,
`ck`, the regularization constant and the eddy-viscosity field are exactly
what they were, whatever the configuration holds. -/
theorem read_base_failure {Cell Face World : Type} (host : Host Cell Face ℝ World)
    (w : Wale Cell Face ℝ World) (hfail : (host.read w.base).1 = false) :
    (w.read host).1 = false ∧
    (w.read host).2.cw_ = w.cw_ ∧
    (w.read host).2.ck_ = w.ck_ ∧
    (w.read host).2.smallConst_ = w.smallConst_ ∧
    (w.read host).2.nuSgs_ = w.nuSgs_ := by
  simp [Wale.read, hfail]

theorem read_base_failure_witness :
    ((sampleHost false [("cw", (0.5 : ℝ))]).read
        (sampleModel false [("cw", (0.5 : ℝ))]).base).1 = false ∧
    List.lookup "cw" ((sampleHost false [("cw", (0.5 : ℝ))]).read
        (sampleModel false [("cw", (0.5 : ℝ))]).base).2.coeffDict_ = some 0.5 ∧
    ((sampleModel false [("cw", (0.5 : ℝ))]).read (sampleHost false [("cw", 0.5)])).1 = false ∧
    ((sampleModel false [("cw", (0.5 : ℝ))]).read (sampleHost false [("cw", 0.5)])).2.cw_.value
      = 0.1 :=
  ⟨rfl, rfl,
    (read_base_failure (sampleHost false [("cw", (0.5 : ℝ))])
      (sampleModel false [("cw", (0.5 : ℝ))]) rfl).1,
    by
      rw [(read_base_failure (sampleHost false [("cw", (0.5 : ℝ))])
        (sampleModel false [("cw", (0.5 : ℝ))]) rfl).2.1]
      rfl⟩

/-- C6: if the base reload succeeds, `read()` returns true and afterwards
`cw` is the configuration's `cw` entry when there is one, and the previously
stored `cw` when there is none.  The coefficient is looked up under its own
name, which is `"cw"` in every state reached from the constructor
(`Wale.run_construct_cw_name`). -/
theorem read_base_success {Cell Face World : Type} (host : Host Cell Face ℝ World)
    (w : Wale Cell Face ℝ World) (hname : w.cw_.name = "cw")
    (hok : (host.read w.base).1 = true) :
    (w.read host).1 = true ∧
    (∀ v, List.lookup "cw" (host.read w.base).2.coeffDict_ = some v →
      (w.read host).2.cw_.value = v) ∧
    (List.lookup "cw" (host.read w.base).2.coeffDict_ = none →
      (w.read host).2.cw_.value = w.cw_.value) := by
  simp only [Wale.read, hok, if_true, dimensionedScalar.readIfPresent, hname]
  refine ⟨trivial, ?_, ?_⟩
  · intro v hv
    rw [hv]
  · intro hnone
    rw [hnone]

theorem read_base_success_witness :
    ((sampleModel true [("ck", (0.2 : ℝ))]).read (sampleHost true [("ck", 0.2)])).1 = true ∧
    ((sampleModel true [("ck", (0.2 : ℝ))]).read (sampleHost true [("ck", 0.2)])).2.cw_.value
      = (sampleModel true [("ck", (0.2 : ℝ))]).cw_.value ∧
    ((sampleModel true [("cw", (0.5 : ℝ))]).read (sampleHost true [("cw", 0.5)])).2.cw_.value
      = 0.5 :=
  ⟨(read_base_success (sampleHost true [("ck", (0.2 : ℝ))]) (sampleModel true [("ck", 0.2)])
      rfl rfl).1,
    (read_base_success (sampleHost true [("ck", (0.2 : ℝ))]) (sampleModel true [("ck", 0.2)])
      rfl rfl).2.2 rfl,
    (read_base_success (sampleHost true [("cw", (0.5 : ℝ))]) (sampleModel true [("cw", 0.5)])
      rfl rfl).2.1 0.5 rfl⟩

/-- C7: `read()` leaves `ck` and the regularization constant exactly as they
were, for every state, every configuration and either outcome of the base
reload; and after any sequence of `correct` and `read` calls both still have
the values the constructor gave them. -/
theorem ck_smallConst_never_reloaded {Cell Face World : Type} (host : Host Cell Face ℝ World) :
    (∀ w : Wale Cell Face ℝ World,
      (w.read host).2.ck_ = w.ck_ ∧ (w.read host).2.smallConst_ = w.smallConst_) ∧
    (∀ (base : GenEddyVisc Cell Face ℝ World) (nuSgs : volScalarField Cell Face ℝ)
        (gradU : volTensorField Cell Face ℝ) (calls : List (Call Cell Face ℝ)),
      ((Wale.construct host base nuSgs gradU).run host calls).ck_
          = (Wale.construct host base nuSgs gradU).ck_ ∧
      ((Wale.construct host base nuSgs gradU).run host calls).smallConst_
          = (Wale.construct host base nuSgs gradU).smallConst_) := by
  refine ⟨fun w => ?_, fun base nuSgs gradU calls => ?_⟩
  · have h := Wale.step_frame host w Call.read
    exact ⟨h.1, h.2.1⟩
  · have h := Wale.run_frame host calls (Wale.construct host base nuSgs gradU)
    exact ⟨h.1, h.2.1⟩

/-- C8: in the scenario `cw = 0.1`, `ck = 0.094`, `delta = 1`,
`G = [[0,1,0],[0,0,0],[0,0,0]]` with a positive regularization constant the
code gives `S = [[0,1/2,0],[1/2,0,0],[0,0,0]]`,
`W = [[0,1/2,0],[-1/2,0,0],[0,0,0]]`, `S:S = 1/2`, `Sd = 0`, `k = 0` and eddy
viscosity `0` after `correct(G)`; and in every cell where the gradient has a
single off-diagonal entry as its only non-zero component, `Sd = 0`, the
divisor of `k` is positive, `k = 0` and the updated eddy viscosity is `0`. -/
theorem simple_shear_vanishes {Cell Face World : Type} (host : Host Cell Face ℝ World)
    (w : Wale Cell Face ℝ World) (gradU : volTensorField Cell Face ℝ) (c : Cell)
    (i j : Fin 3) (a eps : ℝ) (hij : i ≠ j)
    (hG : gradU.internalField c = Tensor.ofMatrix (Matrix.stdBasisMatrix i j a))
    (hw : 0 < w.smallConst_.value) (heps : 0 < eps) :
    ((symm (shear : Tensor ℝ)).toMatrix = !![0, 1 / 2, 0; 1 / 2, 0, 0; 0, 0, 0] ∧
      (skew (shear : Tensor ℝ)).toMatrix = !![0, 1 / 2, 0; -1 / 2, 0, 0; 0, 0, 0] ∧
      (symm (shear : Tensor ℝ)).ddot (symm shear) = 1 / 2 ∧
      Sd (shear : Tensor ℝ) = Tensor.zero ∧
      0 < kDivisor eps shear ∧
      kPoint 0.1 0.094 eps 1 shear = 0 ∧
      (0.094 : ℝ) * 1 * Real.sqrt (kPoint 0.1 0.094 eps 1 shear) = 0 ∧
      ((sampleModel true [] : Wale Unit Unit ℝ Unit).correct (sampleHost true [])
        (GeometricField.uniform shear)).nuSgs_.internalField () = 0) ∧
    (Sd (gradU.internalField c) = Tensor.zero ∧
      0 < kDivisor w.smallConst_.value (gradU.internalField c) ∧
      (w.k gradU).internalField c = 0 ∧
      (w.correct host gradU).nuSgs_.internalField c = 0) := by
  have hshear : Sd (shear : Tensor ℝ) = Tensor.zero := (Sd_offDiagonal 1).1
  have hSd : Sd (gradU.internalField c) = Tensor.zero := by
    rw [hG]
    exact Sd_single_offDiagonal i j hij a
  refine ⟨⟨?_, ?_, ?_, hshear, kDivisor_pos _ _ heps, ?_, ?_, ?_⟩,
    hSd, kDivisor_pos _ _ hw, ?_, ?_⟩
  · ext i j
    fin_cases i <;> fin_cases j <;> norm_num [symm, SymmTensor.toMatrix, shear]
  · ext i j
    fin_cases i <;> fin_cases j <;> norm_num [skew, Tensor.toMatrix, shear]
  · norm_num [symm, SymmTensor.ddot, shear]
  · exact kPoint_of_Sd_zero _ _ _ _ _ hshear
  · rw [kPoint_of_Sd_zero _ _ _ _ _ hshear]
    simp
  · show (sampleModel true [] : Wale Unit Unit ℝ Unit).ck_.value * _ *
      Real.sqrt (kPoint _ _ _ _ shear) = 0
    rw [kPoint_of_Sd_zero _ _ _ _ _ hshear]
    simp
  · simp only [Wale.k, GeometricField.map₂]
    exact kPoint_of_Sd_zero _ _ _ _ _ hSd
  · show w.ck_.value * _ * Real.sqrt (kPoint _ _ _ _ (gradU.internalField c)) = 0
    rw [kPoint_of_Sd_zero _ _ _ _ _ hSd]
    simp

theorem simple_shear_vanishes_witness :
    kPoint 0.1 0.094 (SMALL : ℝ) 1 shear = 0 ∧
    Sd (Tensor.ofMatrix (Matrix.stdBasisMatrix (2 : Fin 3) 0 (3 : ℝ))) = Tensor.zero ∧
    ((sampleModel true [] : Wale Unit Unit ℝ Unit).correct (sampleHost true [])
      (GeometricField.uniform (Tensor.ofMatrix (Matrix.stdBasisMatrix (2 : Fin 3) 0 3)))
        ).nuSgs_.internalField () = 0 :=
  ⟨(simple_shear_vanishes (sampleHost true []) (sampleModel true [])
      (GeometricField.uniform (Tensor.ofMatrix (Matrix.stdBasisMatrix (2 : Fin 3) 0 3))) ()
      2 0 3 SMALL (by decide) rfl
      (by norm_num [sampleModel, Wale.construct, Wale.updateSubGridScaleFields, SMALL])
      (by norm_num [SMALL])).1.2.2.2.2.2.1,
    (simple_shear_vanishes (sampleHost true []) (sampleModel true [])
      (GeometricField.uniform (Tensor.ofMatrix (Matrix.stdBasisMatrix (2 : Fin 3) 0 3))) ()
      2 0 3 SMALL (by decide) rfl
      (by norm_num [sampleModel, Wale.construct, Wale.updateSubGridScaleFields, SMALL])
      (by norm_num [SMALL])).2.1,
    (simple_shear_vanishes (sampleHost true []) (sampleModel true [])
      (GeometricField.uniform (Tensor.ofMatrix (Matrix.stdBasisMatrix (2 : Fin 3) 0 3))) ()
      2 0 3 SMALL (by decide) rfl
      (by norm_num [sampleModel, Wale.construct, Wale.updateSubGridScaleFields, SMALL])
      (by norm_num [SMALL])).2.2.2.2⟩

/-- Counterexample to C9 as stated: for the zero gradient and a positive
regularization constant, a model whose dictionary sets `ck = 0` has no value
for `k` (the quotient `cw*delta/ck` divides by zero), so `k` is not `0`. -/
theorem zero_gradient_undefined_at_zero_ck :
    (zeroCkModel : Wale Unit Unit ℝ Unit).ck_.value = 0 ∧
    0 < (zeroCkModel : Wale Unit Unit ℝ Unit).smallConst_.value ∧
    ((zeroCkModel : Wale Unit Unit ℝ Unit).kChecked
      (GeometricField.uniform Tensor.zero)).internalField () = none ∧
    ((zeroCkModel : Wale Unit Unit ℝ Unit).kChecked
      (GeometricField.uniform Tensor.zero)).internalField () ≠ some 0 := by
  have hnone : ((zeroCkModel : Wale Unit Unit ℝ Unit).kChecked
      (GeometricField.uniform Tensor.zero)).internalField () = none := by
    show kPointChecked (0.1 : ℝ) 0 SMALL 1 Tensor.zero = none
    exact kPointChecked_ck_zero _ _ _ _
  refine ⟨rfl, ?_, hnone, ?_⟩
  · show (0 : ℝ) < SMALL
    norm_num [SMALL]
  · rw [hnone]
    exact fun h => Option.noConfusion h

/-- C9 (amended): for the zero gradient, `ck ≠ 0` and a positive
regularization constant `eps`, whatever `cw` and the filter width: `Sd` is the
zero tensor, `S:S = 0`, the divisor `kDivisor` by which `k` divides equals
`eps` and is not zero, `k` has a value and it is `0`, and `correct` writes eddy
viscosity `0`. -/
theorem zero_gradient {Cell Face World : Type} (host : Host Cell Face ℝ World)
    (w : Wale Cell Face ℝ World) (gradU : volTensorField Cell Face ℝ) (c : Cell)
    (hG : gradU.internalField c = Tensor.zero) (hck : w.ck_.value ≠ 0)
    (heps : 0 < w.smallConst_.value) :
    Sd (gradU.internalField c) = Tensor.zero ∧
    (symm (gradU.internalField c)).ddot (symm (gradU.internalField c)) = 0 ∧
    (w.k gradU).internalField c =
      sqr (w.cw_.value * w.base.delta.internalField c / w.ck_.value) *
        (ScalarFunctions.pow ((Sd (gradU.internalField c)).ddot (Sd (gradU.internalField c))) 3.0 /
          kDivisor w.smallConst_.value (gradU.internalField c)) ∧
    kDivisor w.smallConst_.value (gradU.internalField c) = w.smallConst_.value ∧
    kDivisor w.smallConst_.value (gradU.internalField c) ≠ 0 ∧
    (w.kChecked gradU).internalField c = some 0 ∧
    (w.k gradU).internalField c = 0 ∧
    (w.correct host gradU).nuSgs_.internalField c = 0 := by
  have hSd : Sd (gradU.internalField c) = Tensor.zero := by rw [hG]; exact Sd_zero
  have hk : kPoint w.cw_.value w.ck_.value w.smallConst_.value
      (w.base.delta.internalField c) (gradU.internalField c) = 0 :=
    kPoint_of_Sd_zero _ _ _ _ _ hSd
  refine ⟨hSd, ?_, rfl, ?_, ?_, ?_, ?_, ?_⟩
  · rw [hG]
    simp [symm, SymmTensor.ddot, Tensor.zero]
  · rw [hG]
    exact kDivisor_zero _
  · rw [hG, kDivisor_zero]
    exact ne_of_gt heps
  · simp only [Wale.kChecked, GeometricField.map₂]
    rw [kPointChecked_of_ne _ _ _ _ _ hck heps, hk]
  · simp only [Wale.k, GeometricField.map₂]
    exact hk
  · show w.ck_.value * _ * Real.sqrt (kPoint _ _ _ _ (gradU.internalField c)) = 0
    rw [kPoint_of_Sd_zero _ _ _ _ _ hSd]
    simp

theorem zero_gradient_witness :
    (sampleModel true [] : Wale Unit Unit ℝ Unit).ck_.value ≠ 0 ∧
    kDivisor (sampleModel true [] : Wale Unit Unit ℝ Unit).smallConst_.value Tensor.zero
      = SMALL ∧
    ((sampleModel true [] : Wale Unit Unit ℝ Unit).kChecked
      (GeometricField.uniform Tensor.zero)).internalField () = some 0 ∧
    ((sampleModel true [] : Wale Unit Unit ℝ Unit).correct (sampleHost true [])
      (GeometricField.uniform Tensor.zero)).nuSgs_.internalField () = 0 :=
  ⟨by show (0.094 : ℝ) ≠ 0; norm_num,
    (zero_gradient (sampleHost true []) (sampleModel true [])
      (GeometricField.uniform Tensor.zero) () rfl
      (by show (0.094 : ℝ) ≠ 0; norm_num)
      (by show (0 : ℝ) < SMALL; norm_num [SMALL])).2.2.2.1,
    (zero_gradient (sampleHost true []) (sampleModel true [])
      (GeometricField.uniform Tensor.zero) () rfl
      (by show (0.094 : ℝ) ≠ 0; norm_num)
      (by show (0 : ℝ) < SMALL; norm_num [SMALL])).2.2.2.2.2.1,
    (zero_gradient (sampleHost true []) (sampleModel true [])
      (GeometricField.uniform Tensor.zero) () rfl
      (by show (0.094 : ℝ) ≠ 0; norm_num)
      (by show (0 : ℝ) < SMALL; norm_num [SMALL])).2.2.2.2.2.2.2⟩

/-- C10: for an antisymmetric gradient (`Gᵀ = −G`) the symmetric part is
zero, `W = G`, and `Sd(G) = W·W − (1/3)·I·(−W:W)`, that is
`G·G + (1/3)·(G:G)·I`. -/
theorem Sd_pure_rotation (G : Tensor ℝ) (hG : G.toMatrixᵀ = -G.toMatrix) :
    symm G = ⟨0, 0, 0, 0, 0, 0⟩ ∧
    skew G = G ∧
    Sd G = ((skew G).dot (skew G)).subSpherical
      ((SphericalTensor.scale (1 / 3) I).mulScalar (-((skew G).ddot (skew G)))) ∧
    (Sd G).toMatrix = G.toMatrix * G.toMatrix +
      ((1 / 3 : ℝ) * ddotSpec G.toMatrix G.toMatrix) • (1 : Matrix (Fin 3) (Fin 3) ℝ) := by
  have h00 := congrFun (congrFun hG 0) 0
  have h11 := congrFun (congrFun hG 1) 1
  have h22 := congrFun (congrFun hG 2) 2
  have h01 := congrFun (congrFun hG 0) 1
  have h02 := congrFun (congrFun hG 0) 2
  have h12 := congrFun (congrFun hG 1) 2
  simp only [Matrix.transpose_apply, Matrix.neg_apply, Tensor.toMatrix] at h00 h11 h22 h01 h02 h12
  have hxx : G.xx = 0 := by linarith
  have hyy : G.yy = 0 := by linarith
  have hzz : G.zz = 0 := by linarith
  have hsymm : symm G = ⟨0, 0, 0, 0, 0, 0⟩ := by
    simp only [symm, SymmTensor.mk.injEq]
    refine ⟨hxx, ?_, ?_, hyy, ?_, hzz⟩
    · rw [h01]; ring
    · rw [h02]; ring
    · rw [h12]; ring
  have hskew : skew G = G := by
    cases G
    simp only [skew, Tensor.mk.injEq] at *
    refine ⟨hxx.symm, ?_, ?_, ?_, hyy.symm, ?_, ?_, ?_, hzz.symm⟩ <;>
      first
      | (rw [h01]; ring)
      | (rw [h02]; ring)
      | (rw [h12]; ring)
  have hSd : Sd G = ((skew G).dot (skew G)).subSpherical
      ((SphericalTensor.scale (1 / 3) I).mulScalar (-((skew G).ddot (skew G)))) := by
    unfold Sd
    rw [hsymm]
    simp only [SymmTensor.dot, SymmTensor.ddot, Tensor.add, Tensor.subSpherical,
      SphericalTensor.scale, SphericalTensor.mulScalar, I, Tensor.mk.injEq]
    refine ⟨?_, ?_, ?_, ?_, ?_, ?_, ?_, ?_, ?_⟩ <;> ring
  refine ⟨hsymm, hskew, hSd, ?_⟩
  rw [hSd, hskew, Tensor.subSpherical_toMatrix, tensor_dot_toMatrix, tensor_ddot_eq_ddotSpec]
  simp only [SphericalTensor.scale, SphericalTensor.mulScalar, I]
  rw [sub_eq_add_neg, ← neg_smul]
  congr 2
  ring

theorem Sd_pure_rotation_witness :
    Sd (⟨0, 2, 3, -2, 0, 6, -3, -6, 0⟩ : Tensor ℝ)
      = ((skew ⟨0, 2, 3, -2, 0, 6, -3, -6, 0⟩).dot (skew ⟨0, 2, 3, -2, 0, 6, -3, -6, 0⟩)
          ).subSpherical ((SphericalTensor.scale (1 / 3) I).mulScalar
            (-((skew (⟨0, 2, 3, -2, 0, 6, -3, -6, 0⟩ : Tensor ℝ)).ddot
              (skew ⟨0, 2, 3, -2, 0, 6, -3, -6, 0⟩)))) :=
  (Sd_pure_rotation ⟨0, 2, 3, -2, 0, 6, -3, -6, 0⟩ (by
    ext i j
    fin_cases i <;> fin_cases j <;> simp [Tensor.toMatrix, Matrix.transpose_apply])).2.2.1

/-! ## Further facts for the claims on construction, traces and powers -/

theorem lookupOrAddDefault_fst (dict : dictionary ℝ) (name : String) (x : ℝ) :
    (dictionary.lookupOrAddDefault dict name x).1 = (List.lookup name dict).getD x := by
  unfold dictionary.lookupOrAddDefault
  cases List.lookup name dict <;> rfl

theorem lookupOrAddDefault_snd_other (dict : dictionary ℝ) (name other : String) (x : ℝ)
    (h : (other == name) = false) :
    List.lookup other (dictionary.lookupOrAddDefault dict name x).2 = List.lookup other dict := by
  unfold dictionary.lookupOrAddDefault
  cases hl : List.lookup name dict
  · simp only [List.lookup_append]
    cases List.lookup other dict <;> simp [List.lookup, h]
  · rfl

theorem Sd_trace (G : Tensor ℝ) : (Sd G).xx + (Sd G).yy + (Sd G).zz = 0 := by
  simp only [Sd, symm, skew, SymmTensor.dot, Tensor.dot, SymmTensor.ddot, Tensor.ddot,
    Tensor.add, Tensor.subSpherical, SphericalTensor.scale, SphericalTensor.mulScalar, I]
  ring

/-- C11: for every tensor `G` the code's `Sd(G)` is trace-free,
`Sd_11 + Sd_22 + Sd_33 = 0`; the trace of `S·S` is `S:S` and the trace of
`W·W` is `−W:W`. -/
theorem Sd_trace_free (G : Tensor ℝ) :
    (Sd G).xx + (Sd G).yy + (Sd G).zz = 0 ∧
    Matrix.trace (Sd G).toMatrix = 0 ∧
    ((symm G).dot (symm G)).xx + ((symm G).dot (symm G)).yy + ((symm G).dot (symm G)).zz
      = (symm G).ddot (symm G) ∧
    ((skew G).dot (skew G)).xx + ((skew G).dot (skew G)).yy + ((skew G).dot (skew G)).zz
      = -((skew G).ddot (skew G)) := by
  refine ⟨Sd_trace G, ?_, ?_, ?_⟩
  · rw [Matrix.trace_fin_three]
    exact Sd_trace G
  · simp only [symm, SymmTensor.dot, SymmTensor.ddot]
    ring
  · simp only [skew, Tensor.dot, Tensor.ddot]
    ring

/-- C15: the constructor stores as `cw` the dictionary's `cw` entry if there
is one and `0.1` otherwise, as `ck` the dictionary's `ck` entry if there is
one and `0.094` otherwise; both are dimensionless, and the stored value is
the configured number itself. -/
theorem construct_coefficients {Cell Face World : Type} (host : Host Cell Face ℝ World)
    (base : GenEddyVisc Cell Face ℝ World) (nuSgs : volScalarField Cell Face ℝ)
    (gradU : volTensorField Cell Face ℝ) :
    (Wale.construct host base nuSgs gradU).cw_.value
        = (List.lookup "cw" base.coeffDict_).getD 0.1 ∧
    (Wale.construct host base nuSgs gradU).ck_.value
        = (List.lookup "ck" base.coeffDict_).getD 0.094 ∧
    (Wale.construct host base nuSgs gradU).cw_.dimensions = dimless ∧
    (Wale.construct host base nuSgs gradU).ck_.dimensions = dimless ∧
    (∀ v, List.lookup "cw" base.coeffDict_ = some v →
      (Wale.construct host base nuSgs gradU).cw_.value = v) ∧
    (∀ v, List.lookup "ck" base.coeffDict_ = some v →
      (Wale.construct host base nuSgs gradU).ck_.value = v) := by
  have hcw : (Wale.construct host base nuSgs gradU).cw_.value
      = (List.lookup "cw" base.coeffDict_).getD 0.1 :=
    lookupOrAddDefault_fst base.coeffDict_ "cw" 0.1
  have hck : (Wale.construct host base nuSgs gradU).ck_.value
      = (List.lookup "ck" base.coeffDict_).getD 0.094 := by
    show (dictionary.lookupOrAddDefault
      (dictionary.lookupOrAddDefault base.coeffDict_ "cw" 0.1).2 "ck" 0.094).1 = _
    rw [lookupOrAddDefault_fst, lookupOrAddDefault_snd_other _ _ _ _ (by decide)]
  refine ⟨hcw, hck, rfl, rfl, ?_, ?_⟩
  · intro v hv
    rw [hcw, hv]
    rfl
  · intro v hv
    rw [hck, hv]
    rfl

/-- C19: both bases that `k` raises to a fractional power are non-negative:
`S:S ≥ 0` and `Sd:Sd ≥ 0`, each being the sum of the squares of the nine
components. -/
theorem fractional_power_bases_nonneg (G : Tensor ℝ) :
    0 ≤ (symm G).ddot (symm G) ∧
    0 ≤ (Sd G).ddot (Sd G) ∧
    (symm G).ddot (symm G) = ∑ i, ∑ j, ((symm G).toMatrix i j) ^ 2 ∧
    (Sd G).ddot (Sd G) = ∑ i, ∑ j, ((Sd G).toMatrix i j) ^ 2 := by
  refine ⟨symmTensor_ddot_self_nonneg _, tensor_ddot_self_nonneg _, ?_, ?_⟩
  · rw [symmTensor_ddot_eq_ddotSpec]
    simp only [ddotSpec, sq]
  · rw [tensor_ddot_eq_ddotSpec]
    simp only [ddotSpec, sq]

/-! ## The eddy viscosity in closed form -/

theorem wale_quotient_nonneg (eps : ℝ) (G : Tensor ℝ) (heps : 0 < eps) :
    0 ≤ ScalarFunctions.pow ((Sd G).ddot (Sd G)) 3.0 / kDivisor eps G :=
  div_nonneg (Real.rpow_nonneg (tensor_ddot_self_nonneg _) _) (le_of_lt (kDivisor_pos eps G heps))

theorem nuSgs_closed_form (cw ck eps delta : ℝ) (G : Tensor ℝ) (hcw : 0 ≤ cw) (hck : 0 < ck)
    (hdelta : 0 ≤ delta) :
    ck * delta * Real.sqrt (kPoint cw ck eps delta G) =
      cw * delta ^ 2 *
        Real.sqrt (ScalarFunctions.pow ((Sd G).ddot (Sd G)) 3.0 / kDivisor eps G) := by
  have hx : 0 ≤ cw * delta / ck := div_nonneg (mul_nonneg hcw hdelta) (le_of_lt hck)
  rw [kPoint_eq_div, sqr, Real.sqrt_mul (mul_self_nonneg _), Real.sqrt_mul_self hx]
  field_simp
  ring

theorem wale_quotient_eq_spec (cw eps delta : ℝ) (G : Tensor ℝ) :
    cw * delta ^ 2 *
        Real.sqrt (ScalarFunctions.pow ((Sd G).ddot (Sd G)) 3.0 / kDivisor eps G) =
      nuSgsSpec cw eps delta G.toMatrix := by
  unfold nuSgsSpec kDivisor
  simp only [pow_real, sqrt_real, rpow_three, rpow_two, tensor_ddot_eq_ddotSpec,
    symmTensor_ddot_eq_ddotSpec, Sd_toMatrix, symm_toMatrix]
  rw [show (5.0 / 2.0 : ℝ) = 5 / 2 by norm_num, show (5.0 / 4.0 : ℝ) = 5 / 4 by norm_num]

/-- C20: for `cw ≥ 0`, filter width `≥ 0`, `eps > 0` and `ck > 0` the value
written by `correct(G)` is
`cw · delta² · sqrt((Sd:Sd)³ / (((S:S)^(5/2) + (Sd:Sd)^(5/4))² + eps))`
(the formula `nuSgsSpec`): it is linear in `cw`, and a model that differs
only in a positive `ck` writes the same value. -/
theorem nuSgs_independent_of_ck {Cell Face World : Type} (host : Host Cell Face ℝ World)
    (w : Wale Cell Face ℝ World) (gradU : volTensorField Cell Face ℝ) (c : Cell)
    (hcw : 0 ≤ w.cw_.value) (hck : 0 < w.ck_.value) (heps : 0 < w.smallConst_.value)
    (hdelta : 0 ≤ (host.correct gradU w.base).delta.internalField c) :
    0 < kDivisor w.smallConst_.value (gradU.internalField c) ∧
    (w.correct host gradU).nuSgs_.internalField c =
      nuSgsSpec w.cw_.value w.smallConst_.value
        ((host.correct gradU w.base).delta.internalField c) (gradU.internalField c).toMatrix ∧
    ∀ ck' : ℝ, 0 < ck' →
      ((Wale.mk w.base w.nuSgs_ w.cw_ ⟨w.ck_.name, w.ck_.dimensions, ck'⟩
          w.smallConst_).correct host gradU).nuSgs_.internalField c =
        (w.correct host gradU).nuSgs_.internalField c := by
  have h1 : (w.correct host gradU).nuSgs_.internalField c =
      nuSgsSpec w.cw_.value w.smallConst_.value
        ((host.correct gradU w.base).delta.internalField c)
        (gradU.internalField c).toMatrix := by
    rw [← wale_quotient_eq_spec, ← nuSgs_closed_form _ _ _ _ _ hcw hck hdelta]
    rfl
  refine ⟨kDivisor_pos _ _ heps, h1, fun ck' hck' => ?_⟩
  rw [h1, ← wale_quotient_eq_spec, ← nuSgs_closed_form _ ck' _ _ _ hcw hck' hdelta]
  rfl

theorem nuSgs_independent_of_ck_witness :
    ((strainModel true [] : Wale Unit Unit ℝ Unit).correct (sampleHost true [])
        (GeometricField.uniform strain)).nuSgs_.internalField () =
      nuSgsSpec (strainModel true [] : Wale Unit Unit ℝ Unit).cw_.value
        (strainModel true [] : Wale Unit Unit ℝ Unit).smallConst_.value 1
        (strain : Tensor ℝ).toMatrix :=
  (nuSgs_independent_of_ck (sampleHost true []) (strainModel true [])
    (GeometricField.uniform strain) ()
    (by show (0 : ℝ) ≤ 0.1; norm_num)
    (by show (0 : ℝ) < 0.094; norm_num)
    (by show (0 : ℝ) < SMALL; norm_num [SMALL])
    (by show (0 : ℝ) ≤ 1; norm_num)).2.1

/-- C17: for `ck ≠ 0`, filter width `≠ 0` and `eps > 0`, the eddy viscosity
written by `correct(G)` gives `k` back: `k(G) = nuSgs² / (ck² · delta²)` in
every cell. -/
theorem k_round_trip {Cell Face World : Type} (host : Host Cell Face ℝ World)
    (w : Wale Cell Face ℝ World) (gradU : volTensorField Cell Face ℝ) (c : Cell)
    (hck : w.ck_.value ≠ 0) (heps : 0 < w.smallConst_.value)
    (hdelta : (host.correct gradU w.base).delta.internalField c ≠ 0) :
    ((w.correct host gradU).k gradU).internalField c =
      ((w.correct host gradU).nuSgs_.internalField c) ^ 2 /
        ((w.correct host gradU).ck_.value ^ 2 *
          ((w.correct host gradU).base.delta.internalField c) ^ 2) := by
  have hk : 0 ≤ kPoint w.cw_.value w.ck_.value w.smallConst_.value
      ((host.correct gradU w.base).delta.internalField c) (gradU.internalField c) :=
    kPoint_nonneg _ _ _ _ _ heps
  show kPoint w.cw_.value w.ck_.value w.smallConst_.value
      ((host.correct gradU w.base).delta.internalField c) (gradU.internalField c) =
    (w.ck_.value * (host.correct gradU w.base).delta.internalField c *
      Real.sqrt (kPoint w.cw_.value w.ck_.value w.smallConst_.value
        ((host.correct gradU w.base).delta.internalField c) (gradU.internalField c))) ^ 2 /
      (w.ck_.value ^ 2 * ((host.correct gradU w.base).delta.internalField c) ^ 2)
  rw [mul_pow, mul_pow, Real.sq_sqrt hk]
  field_simp

theorem k_round_trip_witness :
    (((strainModel true [] : Wale Unit Unit ℝ Unit).correct (sampleHost true [])
        (GeometricField.uniform strain)).k (GeometricField.uniform strain)).internalField () =
      (((strainModel true [] : Wale Unit Unit ℝ Unit).correct (sampleHost true [])
        (GeometricField.uniform strain)).nuSgs_.internalField ()) ^ 2 /
        (((strainModel true [] : Wale Unit Unit ℝ Unit).correct (sampleHost true [])
          (GeometricField.uniform strain)).ck_.value ^ 2 *
          (((strainModel true [] : Wale Unit Unit ℝ Unit).correct (sampleHost true [])
            (GeometricField.uniform strain)).base.delta.internalField ()) ^ 2) :=
  k_round_trip (sampleHost true []) (strainModel true []) (GeometricField.uniform strain) ()
    (by show (0.094 : ℝ) ≠ 0; norm_num)
    (by show (0 : ℝ) < SMALL; norm_num [SMALL])
    (by show (1 : ℝ) ≠ 0; norm_num)

/-! ## The eddy viscosity between updates -/

section tracked

variable {Cell Face World : Type}

theorem Wale.read_frame (host : Host Cell Face ℝ World) (w : Wale Cell Face ℝ World) :
    (w.read host).2.nuSgs_ = w.nuSgs_ ∧ (w.read host).2.ck_ = w.ck_ ∧
      (w.read host).2.smallConst_ = w.smallConst_ := by
  simp only [Wale.read]
  split <;> exact ⟨rfl, rfl, rfl⟩

theorem Wale.runTracked_fst (host : Host Cell Face ℝ World) (calls : List (Call Cell Face ℝ)) :
    ∀ (w : Wale Cell Face ℝ World) (u : LastUpdate Cell Face ℝ),
      (Wale.runTracked host w u calls).1 = w.run host calls := by
  induction calls with
  | nil => intro w u; rfl
  | cons call rest ih =>
    intro w u
    cases call with
    | correct gradU => exact ih _ _
    | read => exact ih _ _

theorem Wale.runTracked_append (host : Host Cell Face ℝ World) (w : Wale Cell Face ℝ World)
    (u : LastUpdate Cell Face ℝ) (calls : List (Call Cell Face ℝ)) (call : Call Cell Face ℝ) :
    Wale.runTracked host w u (calls ++ [call]) =
      Wale.track host (Wale.runTracked host w u calls) call := by
  simp [Wale.runTracked, List.foldl_append]

theorem Wale.track_consistent (host : Host Cell Face ℝ World) (c : Cell)
    (p : Wale Cell Face ℝ World × LastUpdate Cell Face ℝ) (call : Call Cell Face ℝ)
    (h : Wale.ConsistentAt c p) : Wale.ConsistentAt c (Wale.track host p call) := by
  cases call with
  | correct gradU => exact rfl
  | read =>
    obtain ⟨h1, h2, h3⟩ := Wale.read_frame host p.1
    unfold Wale.ConsistentAt at h ⊢
    simp only [Wale.track]
    rw [h1, h2, h3]
    exact h

theorem Wale.runTracked_consistent (host : Host Cell Face ℝ World) (c : Cell)
    (calls : List (Call Cell Face ℝ)) :
    ∀ p : Wale Cell Face ℝ World × LastUpdate Cell Face ℝ, Wale.ConsistentAt c p →
      Wale.ConsistentAt c (Wale.runTracked host p.1 p.2 calls) := by
  induction calls with
  | nil => intro p h; exact h
  | cons call rest ih =>
    intro p h
    exact ih _ (Wale.track_consistent host c p call h)

end tracked

theorem Sd_strain_ddot : (Sd (strain : Tensor ℝ)).ddot (Sd strain) = 2 / 3 := by
  simp only [Sd, symm, skew, SymmTensor.dot, Tensor.dot, SymmTensor.ddot, Tensor.ddot,
    Tensor.add, Tensor.subSpherical, SphericalTensor.scale, SphericalTensor.mulScalar, I, strain]
  norm_num

theorem wale_quotient_strain_pos (eps : ℝ) (heps : 0 < eps) :
    0 < ScalarFunctions.pow ((Sd (strain : Tensor ℝ)).ddot (Sd strain)) 3.0 /
      kDivisor eps strain := by
  apply div_pos _ (kDivisor_pos eps _ heps)
  rw [Sd_strain_ddot, pow_real]
  exact Real.rpow_pos_of_pos (by norm_num) _

/-- Counterexample to C12 as stated, after a `read()` that changed `cw`: on
the one-cell model built from a plane strain with `cw = 0.1`, a reload to
`cw = 0.5` leaves the eddy viscosity at its old value, which is not
`ck * delta * sqrt(k)` for the model as it then stands. -/
theorem stale_after_read_counterexample :
    ((strainModel true [("cw", (0.5 : ℝ))]).run (sampleHost true [("cw", 0.5)])
        [Call.read]).cw_.value = 0.5 ∧
    ((strainModel true [("cw", (0.5 : ℝ))]).run (sampleHost true [("cw", 0.5)])
        [Call.read]).nuSgs_.internalField () ≠
      ((strainModel true [("cw", (0.5 : ℝ))]).run (sampleHost true [("cw", 0.5)])
          [Call.read]).ck_.value *
        ((strainModel true [("cw", (0.5 : ℝ))]).run (sampleHost true [("cw", 0.5)])
          [Call.read]).base.delta.internalField () *
        Real.sqrt ((((strainModel true [("cw", (0.5 : ℝ))]).run (sampleHost true [("cw", 0.5)])
          [Call.read]).k (GeometricField.uniform strain)).internalField ()) := by
  refine ⟨rfl, ?_⟩
  show (0.094 : ℝ) * 1 * Real.sqrt (kPoint 0.1 0.094 SMALL 1 strain) ≠
    0.094 * 1 * Real.sqrt (kPoint 0.5 0.094 SMALL 1 strain)
  rw [nuSgs_closed_form _ _ _ _ _ (by norm_num) (by norm_num) (by norm_num),
    nuSgs_closed_form _ _ _ _ _ (by norm_num) (by norm_num) (by norm_num)]
  have hq := Real.sqrt_pos.mpr (wale_quotient_strain_pos SMALL (by norm_num [SMALL]))
  intro h
  nlinarith

/-- C12 (amended): in every state reached from the constructor by any
sequence of `correct(G)` and `read()` calls, the eddy viscosity in every cell
is `ck * delta * sqrt(k(G_last))` with `G_last` the gradient of the most
recent update and with `delta` and `cw` as they stood at that update (`ck` and
the regularization constant as they stand now); right after the constructor
and right after every `correct` these are the model's current values, and a
`read()` leaves both the field and the record untouched. -/
theorem nuSgs_consistent_with_last_update {Cell Face World : Type}
    (host : Host Cell Face ℝ World) (base : GenEddyVisc Cell Face ℝ World)
    (nuSgs : volScalarField Cell Face ℝ) (gradU : volTensorField Cell Face ℝ)
    (calls : List (Call Cell Face ℝ)) (c : Cell) :
    (Wale.constructTracked host base nuSgs gradU calls).1
        = (Wale.construct host base nuSgs gradU).run host calls ∧
    (Wale.constructTracked host base nuSgs gradU calls).1.nuSgs_.internalField c =
      (Wale.constructTracked host base nuSgs gradU calls).1.ck_.value *
        (Wale.constructTracked host base nuSgs gradU calls).2.delta.internalField c *
        Real.sqrt (kPoint (Wale.constructTracked host base nuSgs gradU calls).2.cw
          (Wale.constructTracked host base nuSgs gradU calls).1.ck_.value
          (Wale.constructTracked host base nuSgs gradU calls).1.smallConst_.value
          ((Wale.constructTracked host base nuSgs gradU calls).2.delta.internalField c)
          ((Wale.constructTracked host base nuSgs gradU calls).2.gradU.internalField c)) ∧
    ((Wale.constructTracked host base nuSgs gradU []).2.cw
        = (Wale.constructTracked host base nuSgs gradU []).1.cw_.value ∧
      (Wale.constructTracked host base nuSgs gradU []).2.delta
        = (Wale.constructTracked host base nuSgs gradU []).1.base.delta ∧
      (Wale.constructTracked host base nuSgs gradU []).2.gradU = gradU) ∧
    (∀ g : volTensorField Cell Face ℝ,
      (Wale.constructTracked host base nuSgs gradU (calls ++ [Call.correct g])).2.cw
        = (Wale.constructTracked host base nuSgs gradU (calls ++ [Call.correct g])).1.cw_.value ∧
      (Wale.constructTracked host base nuSgs gradU (calls ++ [Call.correct g])).2.delta
        = (Wale.constructTracked host base nuSgs gradU
            (calls ++ [Call.correct g])).1.base.delta ∧
      (Wale.constructTracked host base nuSgs gradU (calls ++ [Call.correct g])).2.gradU = g) ∧
    ((Wale.constructTracked host base nuSgs gradU (calls ++ [Call.read])).2
        = (Wale.constructTracked host base nuSgs gradU calls).2 ∧
      (Wale.constructTracked host base nuSgs gradU (calls ++ [Call.read])).1.nuSgs_
        = (Wale.constructTracked host base nuSgs gradU calls).1.nuSgs_) := by
  refine ⟨Wale.runTracked_fst host calls _ _, ?_, ⟨rfl, rfl, rfl⟩, fun g => ?_, ?_⟩
  · exact Wale.runTracked_consistent host c calls
      (Wale.construct host base nuSgs gradU,
        ⟨(Wale.construct host base nuSgs gradU).cw_.value,
          (Wale.construct host base nuSgs gradU).base.delta, gradU⟩) rfl
  · unfold Wale.constructTracked
    rw [Wale.runTracked_append]
    exact ⟨rfl, rfl, rfl⟩
  · unfold Wale.constructTracked
    rw [Wale.runTracked_append]
    exact ⟨rfl, (Wale.read_frame host _).1⟩

/-! ## Dimensions -/

theorem SdDimensions_rate : SdDimensions dimRate = some ⟨0, 0, -2, 0, 0, 0, 0⟩ := by
  simp only [SdDimensions, dimensionSet.checked, dimensionSet.mul, dimless, dimRate]
  norm_num

theorem kDivisorDimensions_rate :
    kDivisorDimensions ⟨0, 0, -10, 0, 0, 0, 0⟩ dimRate = some ⟨0, 0, -10, 0, 0, 0, 0⟩ := by
  rw [kDivisorDimensions, SdDimensions_rate]
  simp only [Option.some_bind, dimensionSet.checked, dimensionSet.mul, dimensionSet.pow, dimRate]
  norm_num

theorem kDivisorDimensions_rate_inverse_time_squared :
    kDivisorDimensions ⟨0, 0, -2, 0, 0, 0, 0⟩ dimRate = none := by
  rw [kDivisorDimensions, SdDimensions_rate]
  simp only [Option.some_bind, dimensionSet.checked, dimensionSet.mul, dimensionSet.pow, dimRate]
  norm_num

theorem kDimensions_rate :
    kDimensions dimless dimless ⟨0, 0, -10, 0, 0, 0, 0⟩ dimLength dimRate
      = some ⟨0, 2, -2, 0, 0, 0, 0⟩ := by
  rw [kDimensions, SdDimensions_rate, Option.some_bind, kDivisorDimensions_rate,
    Option.some_bind]
  simp only [dimensionSet.mul, dimensionSet.div, dimensionSet.pow, dimensionSet.sqr, dimless,
    dimLength]
  norm_num

theorem nuSgsDimensions_rate :
    nuSgsDimensions dimless dimless ⟨0, 0, -10, 0, 0, 0, 0⟩ dimLength dimRate
      = some ⟨0, 2, -1, 0, 0, 0, 0⟩ := by
  rw [nuSgsDimensions, kDimensions_rate, Option.some_bind]
  simp only [dimensionSet.mul, dimensionSet.pow, dimensionSet.sqrt, dimless, dimLength]
  norm_num

/-- C13: with the dimensionless `cw` and `ck` and the regularization constant
the constructor creates, a filter width of dimension length and a gradient of
dimension one over time, no checked addition in `Sd`, `k` or the eddy
viscosity rejects its operands: the two summands `(S:S)^(5/2)` and
`(Sd:Sd)^(5/4)` have the same dimension, the regularization constant has the
dimension of the squared sum it is added to, `k` has dimension length²/time²
and the eddy viscosity length²/time. -/
theorem dimensions_consistent {Cell Face World : Type} (host : Host Cell Face ℝ World)
    (base : GenEddyVisc Cell Face ℝ World) (nuSgs : volScalarField Cell Face ℝ)
    (gradU : volTensorField Cell Face ℝ) :
    SdDimensions dimRate = some ⟨0, 0, -2, 0, 0, 0, 0⟩ ∧
    (dimRate.mul dimRate).pow (5 / 2) =
      ((dimensionSet.mk 0 0 (-2) 0 0 0 0).mul ⟨0, 0, -2, 0, 0, 0, 0⟩).pow (5 / 4) ∧
    ((dimRate.mul dimRate).pow (5 / 2)).pow 2 =
      (Wale.construct host base nuSgs gradU).smallConst_.dimensions ∧
    kDivisorDimensions (Wale.construct host base nuSgs gradU).smallConst_.dimensions dimRate
      = some (Wale.construct host base nuSgs gradU).smallConst_.dimensions ∧
    kDimensions (Wale.construct host base nuSgs gradU).cw_.dimensions
        (Wale.construct host base nuSgs gradU).ck_.dimensions
        (Wale.construct host base nuSgs gradU).smallConst_.dimensions dimLength dimRate
      = some ⟨0, 2, -2, 0, 0, 0, 0⟩ ∧
    nuSgsDimensions (Wale.construct host base nuSgs gradU).cw_.dimensions
        (Wale.construct host base nuSgs gradU).ck_.dimensions
        (Wale.construct host base nuSgs gradU).smallConst_.dimensions dimLength dimRate
      = some ⟨0, 2, -1, 0, 0, 0, 0⟩ := by
  refine ⟨SdDimensions_rate, ?_, ?_, kDivisorDimensions_rate, kDimensions_rate,
    nuSgsDimensions_rate⟩
  · simp only [dimensionSet.mul, dimensionSet.pow, dimRate]
    norm_num
  · show _ = dimensionSet.mk 0 0 (-10) 0 0 0 0
    simp only [dimensionSet.mul, dimensionSet.pow, dimRate]
    norm_num

/-- Counterexample to C14 as stated: the regularization constant the
constructor creates has time exponent `−10`, not `−2`. -/
theorem smallConst_not_inverse_time_squared :
    (sampleModel true [] : Wale Unit Unit ℝ Unit).smallConst_.dimensions.time = -10 ∧
    (sampleModel true [] : Wale Unit Unit ℝ Unit).smallConst_.dimensions.time ≠ -2 ∧
    (sampleModel true [] : Wale Unit Unit ℝ Unit).smallConst_.dimensions
      ≠ ⟨0, 0, -2, 0, 0, 0, 0⟩ := by
  refine ⟨rfl, ?_, ?_⟩
  · show (-10 : ℚ) ≠ -2
    norm_num
  · show dimensionSet.mk 0 0 (-10) 0 0 0 0 ≠ ⟨0, 0, -2, 0, 0, 0, 0⟩
    intro h
    have ht := congrArg dimensionSet.time h
    norm_num at ht

/-- C14 (amended): the regularization constant created at construction has
time exponent `−10` and every other exponent `0`; for a gradient of dimension
one over time that is the dimension of the squared sum it is added to, and
the checked addition accepts it (a constant of dimension inverse time squared
would be rejected). -/
theorem smallConst_dimensions {Cell Face World : Type} (host : Host Cell Face ℝ World)
    (base : GenEddyVisc Cell Face ℝ World) (nuSgs : volScalarField Cell Face ℝ)
    (gradU : volTensorField Cell Face ℝ) :
    (Wale.construct host base nuSgs gradU).smallConst_.dimensions
      = ⟨0, 0, -10, 0, 0, 0, 0⟩ ∧
    ((dimRate.mul dimRate).pow (5 / 2)).pow 2 =
      (Wale.construct host base nuSgs gradU).smallConst_.dimensions ∧
    kDivisorDimensions (Wale.construct host base nuSgs gradU).smallConst_.dimensions dimRate
      = some ⟨0, 0, -10, 0, 0, 0, 0⟩ ∧
    kDivisorDimensions ⟨0, 0, -2, 0, 0, 0, 0⟩ dimRate = none := by
  refine ⟨rfl, ?_, kDivisorDimensions_rate, kDivisorDimensions_rate_inverse_time_squared⟩
  show _ = dimensionSet.mk 0 0 (-10) 0 0 0 0
  simp only [dimensionSet.mul, dimensionSet.pow, dimRate]
  norm_num

/-! ## Solid-body rotation -/

theorem antisymmetric_components (G : Tensor ℝ) (hG : G.toMatrixᵀ = -G.toMatrix) :
    G.xx = 0 ∧ G.yy = 0 ∧ G.zz = 0 ∧ G.yx = -G.xy ∧ G.zx = -G.xz ∧ G.zy = -G.yz := by
  have h00 := congrFun (congrFun hG 0) 0
  have h11 := congrFun (congrFun hG 1) 1
  have h22 := congrFun (congrFun hG 2) 2
  have h01 := congrFun (congrFun hG 0) 1
  have h02 := congrFun (congrFun hG 0) 2
  have h12 := congrFun (congrFun hG 1) 2
  simp only [Matrix.transpose_apply, Matrix.neg_apply, Tensor.toMatrix] at h00 h11 h22 h01 h02 h12
  exact ⟨by linarith, by linarith, by linarith, h01, h02, h12⟩

theorem rotation_contractions (a b c : ℝ) :
    (symm (⟨0, a, b, -a, 0, c, -b, -c, 0⟩ : Tensor ℝ)).ddot (symm ⟨0, a, b, -a, 0, c, -b, -c, 0⟩)
      = 0 ∧
    (⟨0, a, b, -a, 0, c, -b, -c, 0⟩ : Tensor ℝ).ddot ⟨0, a, b, -a, 0, c, -b, -c, 0⟩
      = 2 * (a ^ 2 + b ^ 2 + c ^ 2) ∧
    (Sd (⟨0, a, b, -a, 0, c, -b, -c, 0⟩ : Tensor ℝ)).ddot (Sd ⟨0, a, b, -a, 0, c, -b, -c, 0⟩)
      = 2 / 3 * (a ^ 2 + b ^ 2 + c ^ 2) ^ 2 := by
  refine ⟨?_, ?_, ?_⟩
  · simp only [symm, SymmTensor.ddot]
    ring
  · simp only [Tensor.ddot]
    ring
  · simp only [Sd, symm, skew, SymmTensor.dot, Tensor.dot, SymmTensor.ddot, Tensor.ddot,
      Tensor.add, Tensor.subSpherical, SphericalTensor.scale, SphericalTensor.mulScalar, I]
    ring

theorem kDivisor_eq_iff (eps : ℝ) (G : Tensor ℝ)
    (hS : (symm G).ddot (symm G) = 0) :
    kDivisor eps G = (((Sd G).ddot (Sd G)) ^ (5 / 4 : ℝ)) ^ 2 + eps ∧
    (kDivisor eps G = eps ↔ (Sd G).ddot (Sd G) = 0) := by
  have hform : kDivisor eps G = (((Sd G).ddot (Sd G)) ^ (5 / 4 : ℝ)) ^ 2 + eps := by
    unfold kDivisor
    rw [hS]
    simp only [pow_real, rpow_two]
    rw [show (5.0 / 2.0 : ℝ) = 5 / 2 by norm_num, show (5.0 / 4.0 : ℝ) = 5 / 4 by norm_num,
      Real.zero_rpow (by norm_num), zero_add]
  refine ⟨hform, ?_⟩
  rw [hform]
  constructor
  · intro h
    have h2 : (((Sd G).ddot (Sd G)) ^ (5 / 4 : ℝ)) ^ 2 = 0 := by linarith
    have h3 : ((Sd G).ddot (Sd G)) ^ (5 / 4 : ℝ) = 0 := pow_eq_zero_iff (by norm_num) |>.mp h2
    exact ((Real.rpow_eq_zero_iff_of_nonneg (tensor_ddot_self_nonneg _)).mp h3).1
  · intro h
    rw [h, Real.zero_rpow (by norm_num)]
    norm_num

/-- Counterexample to C16 as stated: for the solid-body rotation
`[[0,1,0],[-1,0,0],[0,0,0]]` the gradient is antisymmetric and `S:S = 0`, but
`Sd:Sd = 2/3`, and the divisor of `k` is not the regularization constant. -/
theorem rotation_Sd_not_zero :
    (rotation : Tensor ℝ).toMatrixᵀ = -(rotation : Tensor ℝ).toMatrix ∧
    (symm (rotation : Tensor ℝ)).ddot (symm rotation) = 0 ∧
    (Sd (rotation : Tensor ℝ)).ddot (Sd rotation) = 2 / 3 ∧
    (Sd (rotation : Tensor ℝ)).ddot (Sd rotation) ≠ 0 ∧
    kDivisor (SMALL : ℝ) rotation ≠ SMALL := by
  have h := rotation_contractions 1 0 0
  have hSd : (Sd (rotation : Tensor ℝ)).ddot (Sd rotation) = 2 / 3 := by
    have h3 := h.2.2
    norm_num at h3
    exact h3
  have hS : (symm (rotation : Tensor ℝ)).ddot (symm rotation) = 0 := by
    have h1 := h.1
    norm_num at h1
    exact h1
  refine ⟨?_, hS, hSd, ?_, ?_⟩
  · ext i j
    fin_cases i <;> fin_cases j <;>
      simp [rotation, Tensor.toMatrix, Matrix.transpose_apply]
  · rw [hSd]
    norm_num
  · intro hk
    have := (kDivisor_eq_iff SMALL rotation hS).2.mp hk
    rw [hSd] at this
    norm_num at this

/-- C16 (amended): for every solid-body-rotation gradient (`G` antisymmetric)
`S:S = 0`, while `Sd:Sd = (G:G)²/6`, which vanishes only for `G = 0`; the
divisor of `k` is `((Sd:Sd)^(5/4))² + eps` and reduces to the regularization
constant exactly when `G = 0`. -/
theorem rotation_contractions_general (G : Tensor ℝ) (eps : ℝ)
    (hG : G.toMatrixᵀ = -G.toMatrix) :
    (symm G).ddot (symm G) = 0 ∧
    (Sd G).ddot (Sd G) = (G.ddot G) ^ 2 / 6 ∧
    ((Sd G).ddot (Sd G) = 0 ↔ G = Tensor.zero) ∧
    kDivisor eps G = (((Sd G).ddot (Sd G)) ^ (5 / 4 : ℝ)) ^ 2 + eps ∧
    (kDivisor eps G = eps ↔ G = Tensor.zero) := by
  obtain ⟨hxx, hyy, hzz, hyx, hzx, hzy⟩ := antisymmetric_components G hG
  obtain ⟨xx, xy, xz, yx, yy, yz, zx, zy, zz⟩ := G
  simp only at hxx hyy hzz hyx hzx hzy
  subst hxx hyy hzz hyx hzx hzy
  obtain ⟨hS, hGG, hSd⟩ := rotation_contractions xy xz yz
  have hzero : (Sd (⟨0, xy, xz, -xy, 0, yz, -xz, -yz, 0⟩ : Tensor ℝ)).ddot
      (Sd ⟨0, xy, xz, -xy, 0, yz, -xz, -yz, 0⟩) = 0 ↔
      (⟨0, xy, xz, -xy, 0, yz, -xz, -yz, 0⟩ : Tensor ℝ) = Tensor.zero := by
    rw [hSd]
    constructor
    · intro h
      have hsum : xy ^ 2 + xz ^ 2 + yz ^ 2 = 0 := by
        have h2 : (xy ^ 2 + xz ^ 2 + yz ^ 2) ^ 2 = 0 := by linarith
        exact pow_eq_zero_iff (by norm_num) |>.mp h2
      have h1 : xy = 0 := by nlinarith [sq_nonneg xy, sq_nonneg xz, sq_nonneg yz]
      have h2 : xz = 0 := by nlinarith [sq_nonneg xy, sq_nonneg xz, sq_nonneg yz]
      have h3 : yz = 0 := by nlinarith [sq_nonneg xy, sq_nonneg xz, sq_nonneg yz]
      subst h1 h2 h3
      simp [Tensor.zero]
    · intro h
      simp only [Tensor.zero, Tensor.mk.injEq] at h
      obtain ⟨-, h1, h2, -, -, h3, -, -, -⟩ := h
      subst h1 h2 h3
      norm_num
  refine ⟨hS, ?_, hzero, (kDivisor_eq_iff eps _ hS).1, ?_⟩
  · rw [hSd, hGG]
    ring
  · rw [(kDivisor_eq_iff eps _ hS).2]
    exact hzero

theorem rotation_contractions_general_witness :
    (Sd (⟨0, 2, 3, -2, 0, 6, -3, -6, 0⟩ : Tensor ℝ)).ddot (Sd ⟨0, 2, 3, -2, 0, 6, -3, -6, 0⟩)
      = ((⟨0, 2, 3, -2, 0, 6, -3, -6, 0⟩ : Tensor ℝ).ddot ⟨0, 2, 3, -2, 0, 6, -3, -6, 0⟩) ^ 2 / 6 :=
  (rotation_contractions_general ⟨0, 2, 3, -2, 0, 6, -3, -6, 0⟩ SMALL (by
    ext i j
    fin_cases i <;> fin_cases j <;> simp [Tensor.toMatrix, Matrix.transpose_apply])).2.1

end Foam
